import Mathlib

/-!
Verification development for the account-ledger core of this repository
(Merkle account tree, mask overlays, fee-excess algebra, transaction and
zkApp application logic).  Rust machine integers are embedded as `Nat`
(resp. `Int` for signed values) with explicit bounds where overflow is
observable; fallible or panicking code returns `Option`/`Except`
(`none` models a panic, `Except.error` a recoverable error); hash
functions are embedded as injective free constructors.
-/

/-- Largest value of a Rust `u64`. -/
def u64Max : Nat := 18446744073709551615

/-- Modulus of a Rust `u32` (`wrapping_add` wraps at this value). -/
def u32Mod : Nat := 4294967296

/-- Association-list lookup, models `HashMap::get`. -/
def alookup {α β : Type} [DecidableEq α] (l : List (α × β)) (k : α) : Option β :=
  (l.find? (fun p => p.1 = k)).map (fun p => p.2)

/-- Association-list insert-or-replace, models `HashMap::insert`. -/
def ainsert {α β : Type} [DecidableEq α] (l : List (α × β)) (k : α) (v : β) : List (α × β) :=
  (k, v) :: l.filter (fun p => ¬ (p.1 = k))

/-- Association-list removal, models `HashMap::remove` (the removed value,
when the caller unwraps it, is obtained by a preceding `alookup`). -/
def aremove {α β : Type} [DecidableEq α] (l : List (α × β)) (k : α) : List (α × β) :=
  l.filter (fun p => ¬ (p.1 = k))

/-- Insertion of a number into an ascending list, helper for `sortAsc`. -/
def insertAsc (x : Nat) : List Nat → List Nat
  | [] => [x]
  | y :: ys => if x ≤ y then x :: y :: ys else y :: insertAsc x ys

/-- Insertion sort, ascending; models the `sort_by(to_index)` call in
`remove_own_account` (mask_impl.rs line 298). -/
def sortAsc : List Nat → List Nat
  | [] => []
  | x :: xs => insertAsc x (sortAsc xs)

/-- Option-valued `mapM` over a list written as plain recursion so that it
unfolds step by step in proofs. -/
def omapM {α β : Type} (f : α → Option β) : List α → Option (List β)
  | [] => some []
  | a :: as_ =>
    match f a, omapM f as_ with
    | some b, some bs => some (b :: bs)
    | _, _ => none

/-- Checked `u64` addition: `checked_add` from the currency module
(modelled from the spec, section 4.D: checked add returns none on
overflow). -/
def checkedAddU64 (a b : Nat) : Option Nat :=
  if a + b ≤ u64Max then some (a + b) else none

/-- Checked `u64` subtraction: `checked_sub` / `Balance::sub_amount`
(modelled from the spec, section 4.D: checked sub returns none on
underflow). -/
def checkedSubU64 (a b : Nat) : Option Nat :=
  if b ≤ a then some (a - b) else none

/-!  Component F: timing validation (`transaction_logic.rs`). -/

/-- Embeds `account_min_balance_at_slot`
(transaction_logic.rs lines 1503-1548).  Slots are `u32`, amounts and
balances `u64`; the `u32` subtraction `global_slot - cliff_time` cannot
underflow in its branch and is `Nat` subtraction here; the vesting
decrement saturates at `u64::MAX` exactly when the Rust overflow guard
`u64::MAX.checked_div(num_periods) < vesting_increment` fires (a `none`
division result, i.e. `num_periods = 0`, leaves the guard false). -/
def account_min_balance_at_slot (global_slot cliff_time cliff_amount vesting_period
    vesting_increment initial_minimum_balance : Nat) : Nat :=
  if global_slot < cliff_time then
    initial_minimum_balance
  else if vesting_period = 0 then
    0
  else
    match checkedSubU64 initial_minimum_balance cliff_amount with
    | none => 0
    | some min_balance_past_cliff =>
      let num_periods := (global_slot - cliff_time) / vesting_period
      let vesting_decrement :=
        if num_periods ≠ 0 ∧ u64Max / num_periods < vesting_increment then u64Max
        else num_periods * vesting_increment
      match checkedSubU64 min_balance_past_cliff vesting_decrement with
      | none => 0
      | some amount => amount

/-!  Component E: fee-excess algebra (`fee_excess.rs`). -/

/-- Default token id (`TokenId::default()`), the distinguished field
element `1`; token ids are embedded as `Nat`. -/
def tokenIdDefault : Nat := 1

/-- Two-slot fee excess (fee_excess.rs lines 40-46).  A `Signed<Fee>` is
embedded as an `Int` whose magnitude is its `u64` absolute value;
`is_zero` of the magnitude is equality with `0`. -/
structure FeeExcess where
  fee_token_l : Nat
  fee_excess_l : Int
  fee_token_r : Nat
  fee_excess_r : Int
deriving DecidableEq, Repr

/-- Addition of two `Signed<Fee>` values (modelled from the spec,
section 4.D): `none` when the magnitude of the result overflows `u64`. -/
def signedFeeAdd (x y : Int) : Option Int :=
  if (x + y).natAbs ≤ u64Max then some (x + y) else none

/-- Final token normalisation of `rebalance` (fee_excess.rs lines 80-100):
a zero-excess slot takes the default token. -/
def rebalancePost (ftl ftr : Nat) (el er : Int) : FeeExcess :=
  { fee_token_l := if el = 0 then tokenIdDefault else ftl
    fee_excess_l := el
    fee_token_r := if er = 0 then tokenIdDefault else ftr
    fee_excess_r := er }

/-- Embeds `FeeExcess::rebalance` (fee_excess.rs lines 55-101). `none`
models the `panic!("Error adding fees: overflow")`. -/
def rebalance (fe : FeeExcess) : Option FeeExcess :=
  let fee_token_l := if fe.fee_excess_l = 0 then fe.fee_token_r else fe.fee_token_l
  if fee_token_l = fe.fee_token_r then
    match signedFeeAdd fe.fee_excess_l fe.fee_excess_r with
    | none => none
    | some el => some (rebalancePost fee_token_l fe.fee_token_r el 0)
  else
    some (rebalancePost fee_token_l fe.fee_token_r fe.fee_excess_l fe.fee_excess_r)

/-!  Component F data model (`transaction_logic.rs`). -/

/-- Embeds the `TransactionFailure` enum
(transaction_logic.rs lines 25-68). -/
inductive TransactionFailure
  | Predicate
  | Source_not_present
  | Receiver_not_present
  | Amount_insufficient_to_create_account
  | Cannot_pay_creation_fee_in_token
  | Source_insufficient_balance
  | Source_minimum_balance_violation
  | Receiver_already_exists
  | Token_owner_not_caller
  | Overflow
  | Global_excess_overflow
  | Local_excess_overflow
  | Local_supply_increase_overflow
  | Global_supply_increase_overflow
  | Signed_command_on_zkapp_account
  | Zkapp_account_not_present
  | Update_not_permitted_balance
  | Update_not_permitted_timing_existing_account
  | Update_not_permitted_delegate
  | Update_not_permitted_app_state
  | Update_not_permitted_verification_key
  | Update_not_permitted_sequence_state
  | Update_not_permitted_zkapp_uri
  | Update_not_permitted_token_symbol
  | Update_not_permitted_permissions
  | Update_not_permitted_nonce
  | Update_not_permitted_voting_for
  | Zkapp_command_replay_check_failed
  | Fee_payer_nonce_must_increase
  | Fee_payer_must_be_signed
  | Account_balance_precondition_unsatisfied
  | Account_nonce_precondition_unsatisfied
  | Account_receipt_chain_hash_precondition_unsatisfied
  | Account_delegate_precondition_unsatisfied
  | Account_sequence_state_precondition_unsatisfied
  | Account_app_state_precondition_unsatisfied (idx : Int)
  | Account_proved_state_precondition_unsatisfied
  | Account_is_new_precondition_unsatisfied
  | Protocol_state_precondition_unsatisfied
  | Incorrect_nonce
  | Invalid_fee_excess
  | Cancelled
deriving DecidableEq, Repr

/-- Embeds `single_failure` (transaction_logic.rs lines 70-72). -/
def single_failure : List (List TransactionFailure) :=
  [[TransactionFailure.Update_not_permitted_balance]]

/-- Embeds `TransactionStatus` (transaction_logic.rs lines 76-79). -/
inductive TransactionStatus
  | Applied
  | Failed (failures : List (List TransactionFailure))
deriving DecidableEq, Repr

/-- Embeds `WithStatus<T>` (transaction_logic.rs lines 83-86). -/
structure WithStatus (α : Type) where
  data : α
  status : TransactionStatus
deriving DecidableEq, Repr

/-- Account vesting timing (`Timing` of the account module, shape as used
by transaction_logic.rs lines 1440-1446); all magnitudes are `u64`/`u32`
naturals. -/
inductive Timing
  | Untimed
  | Timed (initial_minimum_balance cliff_time cliff_amount vesting_period
      vesting_increment : Nat)
deriving DecidableEq, Repr

/-- Common part of a signed-command payload
(transaction_logic.rs lines 183-190); public keys are embedded as `Nat`,
the memo as a byte list. -/
structure PayloadCommon where
  fee : Nat
  fee_token : Nat
  fee_payer_pk : Nat
  nonce : Nat
  valid_until : Nat
  memo : List Nat
deriving DecidableEq, Repr

/-- Body of a signed-command payload (transaction_logic.rs
lines 194-214), payment or stake-delegation fields inlined. -/
inductive PayloadBody
  | Payment (source_pk receiver_pk amount : Nat)
  | StakeDelegation (delegator new_delegate : Nat)
deriving DecidableEq, Repr

/-- Embeds `SignedCommandPayload` (transaction_logic.rs lines 218-221). -/
structure SignedCommandPayload where
  common : PayloadCommon
  body : PayloadBody
deriving DecidableEq, Repr

/-- Receipt-chain hash, embedded as a free construction: `cons` is the
domain-separated legacy hash `cons_signed_command_payload`
(transaction_logic.rs lines 1322-1355), injective in its arguments. -/
inductive ReceiptChainHash
  | init (seed : Nat)
  | cons (payload : SignedCommandPayload) (prev : ReceiptChainHash)
deriving DecidableEq, Repr

/-- Embeds `cons_signed_command_payload`
(transaction_logic.rs lines 1322-1355): returns the new
receipt-chain hash of the payload over the previous hash. -/
def cons_signed_command_payload (p : SignedCommandPayload) (prev : ReceiptChainHash) :
    ReceiptChainHash :=
  ReceiptChainHash.cons p prev

/-- Account id: pair of public key and token id (spec section 3). -/
structure AccountId where
  public_key : Nat
  token_id : Nat
deriving DecidableEq, Repr

/-- Ledger account record, restricted to the fields read or written by
the embedded operations; `receive_allowed` models
`Account::has_permission_to(PermissionTo::Receive)` (the account module
is not part of the sources; modelled from the spec: one authorization
requirement per editable attribute, checked for `Receive` on fee
transfers). -/
structure Account where
  public_key : Nat
  token_id : Nat
  balance : Nat
  nonce : Nat
  receipt_chain_hash : ReceiptChainHash
  timing : Timing
  receive_allowed : Bool
deriving DecidableEq, Repr

/-- Embeds `Account::id()`. -/
def Account.id (a : Account) : AccountId :=
  { public_key := a.public_key, token_id := a.token_id }

/-- Modelled from the spec: `Account::initialize(account_id)` (account
module, not under the sources) creates the empty account for an id;
default permissions allow receiving. -/
def Account.initialize_account (id : AccountId) : Account :=
  { public_key := id.public_key, token_id := id.token_id, balance := 0, nonce := 0,
    receipt_chain_hash := ReceiptChainHash.init 0, timing := Timing.Untimed,
    receive_allowed := true }

/-- Modelled from the spec: `Account::create_with(account_id, balance)`
(used by `get_with_location` for a not-yet-existing fee payer). -/
def Account.create_with (id : AccountId) (balance : Nat) : Account :=
  { Account.initialize_account id with balance := balance }

/-- Simple model of a `BaseLedger` instance for the generic transaction
functions: a dense list of accounts addressed by their leaf index
(addresses and indices are interchangeable per the spec round-trip
invariant P1). -/
abbrev SimpleLedger : Type := List Account

/-- Embeds `BaseLedger::location_of_account` for the simple ledger
model: index of the account with the given id. -/
def location_of_account (l : SimpleLedger) (id : AccountId) : Option Nat :=
  List.findIdx? (fun a => a.id = id) l

/-- Embeds `BaseLedger::get` for the simple ledger model. -/
def ledger_get (l : SimpleLedger) (i : Nat) : Option Account :=
  List.get? l i

/-- Embeds `BaseLedger::set` for the simple ledger model. -/
def ledger_set (l : SimpleLedger) (i : Nat) (a : Account) : SimpleLedger :=
  List.set l i a

/-- Embeds `GetOrCreated` (ledger base module). -/
inductive GetOrCreated
  | Added (addr : Nat)
  | Existed (addr : Nat)
deriving DecidableEq, Repr

/-- Embeds `BaseLedger::get_or_create_account` for the simple ledger
model: append after the last filled index when the id is unseen (the
model is unbounded, so `OutOfLeaves` cannot occur). -/
def get_or_create_account (l : SimpleLedger) (id : AccountId) (a : Account) :
    SimpleLedger × GetOrCreated :=
  match location_of_account l id with
  | some i => (l, GetOrCreated.Existed i)
  | none => (l ++ [a], GetOrCreated.Added l.length)

/-- Embeds `AccountState` (transaction_logic.rs lines 1027-1030). -/
inductive AccountState
  | Added
  | Existed
deriving DecidableEq, Repr

/-- Embeds `TimingValidation` (transaction_logic.rs lines 1408-1411). -/
inductive TimingValidation
  | InsufficientBalance (b : Bool)
  | InvalidTiming (b : Bool)
deriving DecidableEq, Repr

/-- Embeds `validate_timing_with_min_balance_impl`
(transaction_logic.rs lines 1416-1500); returns the validation verdict,
the updated timing (possibly transitioning to `Untimed`), and the
computed minimum balance. -/
def validate_timing_with_min_balance_impl (account : Account) (txn_amount txn_global_slot : Nat) :
    TimingValidation × Timing × Nat :=
  match account.timing with
  | Timing.Untimed =>
    match checkedSubU64 account.balance txn_amount with
    | none => (TimingValidation.InsufficientBalance true, Timing.Untimed, 0)
    | some _ => (TimingValidation.InsufficientBalance false, Timing.Untimed, 0)
  | Timing.Timed initial_minimum_balance cliff_time cliff_amount vesting_period
      vesting_increment =>
    let r :=
      match checkedSubU64 account.balance txn_amount with
      | none => (true, false, initial_minimum_balance)
      | some proposed_new_balance =>
        let curr_min_balance := account_min_balance_at_slot txn_global_slot cliff_time
          cliff_amount vesting_period vesting_increment initial_minimum_balance
        if proposed_new_balance < curr_min_balance then (false, true, curr_min_balance)
        else (false, false, curr_min_balance)
    let possibly_error :=
      if r.1 then TimingValidation.InsufficientBalance r.1
      else TimingValidation.InvalidTiming r.2.1
    if r.2.2 > 0 then (possibly_error, account.timing, r.2.2)
    else (possibly_error, Timing.Untimed, 0)

/-- Embeds `validate_timing_with_min_balance`
(transaction_logic.rs lines 1378-1406).  `none` models the
`panic!("Broken invariant ...")` arm, which fires exactly on
`InsufficientBalance(false)` - note this is the verdict the
implementation produces for an untimed account with sufficient
balance. -/
def validate_timing_with_min_balance (account : Account) (txn_amount txn_global_slot : Nat) :
    Option (Except String (Timing × Nat)) :=
  match validate_timing_with_min_balance_impl account txn_amount txn_global_slot with
  | (TimingValidation.InsufficientBalance true, _, _) =>
    some (Except.error ("For timed account, insufficient balance"))
  | (TimingValidation.InvalidTiming true, _, _) =>
    some (Except.error ("For timed account, balance would fall below the minimum balance"))
  | (TimingValidation.InsufficientBalance false, _, _) => none
  | (TimingValidation.InvalidTiming false, timing, min_balance) =>
    some (Except.ok (timing, min_balance))

/-- Embeds `validate_timing` (transaction_logic.rs lines 1368-1376). -/
def validate_timing (account : Account) (txn_amount txn_global_slot : Nat) :
    Option (Except String Timing) :=
  match validate_timing_with_min_balance account txn_amount txn_global_slot with
  | none => none
  | some (Except.error e) => some (Except.error e)
  | some (Except.ok (timing, _)) => some (Except.ok timing)

/-- Embeds `update_timing_when_no_deduction`
(transaction_logic.rs lines 825-830). -/
def update_timing_when_no_deduction (txn_global_slot : Nat) (account : Account) :
    Option (Except String Timing) :=
  validate_timing account 0 txn_global_slot

/-- Embeds `sub_amount` (transaction_logic.rs lines 1550-1554). -/
def sub_amount (balance amount : Nat) : Except String Nat :=
  match checkedSubU64 balance amount with
  | some b => Except.ok b
  | none => Except.error ("insufficient funds")

/-- Embeds `add_amount` (transaction_logic.rs lines 1556-1560). -/
def add_amount (balance amount : Nat) : Except String Nat :=
  match checkedAddU64 balance amount with
  | some b => Except.ok b
  | none => Except.error ("overflow")

/-- Embeds `validate_nonces` (transaction_logic.rs lines 1357-1366). -/
def validate_nonces (txn_nonce account_nonce : Nat) : Except String Unit :=
  if account_nonce = txn_nonce then Except.ok ()
  else Except.error ("Nonce in account different from nonce in transaction")

/-- Embeds `ExistingOrNew` (transaction_logic.rs lines 1562-1565). -/
inductive ExistingOrNew
  | Existing (addr : Nat)
  | New
deriving DecidableEq, Repr

/-- Embeds `get_with_location` (transaction_logic.rs lines 1567-1584);
`none` models the `panic!("Ledger location with no account")`. -/
def get_with_location (l : SimpleLedger) (id : AccountId) :
    Option (ExistingOrNew × Account) :=
  match location_of_account l id with
  | some location =>
    match ledger_get l location with
    | some account => some (ExistingOrNew.Existing location, account)
    | none => none
  | none => some (ExistingOrNew.New, Account.create_with id 0)

/-- Embeds `pay_fee_impl` (transaction_logic.rs lines 1136-1177); the
nonce increment is the source's `account.nonce.wrapping_add(1)` on a
`u32`. -/
def pay_fee_impl (command : SignedCommandPayload) (nonce : Nat) (fee_payer : AccountId)
    (fee : Nat) (l : SimpleLedger) (current_global_slot : Nat) :
    Option (Except String (ExistingOrNew × Account)) :=
  match get_with_location l fee_payer with
  | none => none
  | some (location, account) =>
    match location with
    | ExistingOrNew.New => some (Except.error ("The fee-payer account does not exist"))
    | ExistingOrNew.Existing _ =>
      match sub_amount account.balance fee with
      | Except.error e => some (Except.error e)
      | Except.ok balance =>
        match validate_nonces nonce account.nonce with
        | Except.error e => some (Except.error e)
        | Except.ok _ =>
          match validate_timing account fee current_global_slot with
          | none => none
          | some (Except.error e) => some (Except.error e)
          | some (Except.ok timing) =>
            some (Except.ok (location,
              { account with
                balance := balance
                nonce := (account.nonce + 1) % u32Mod
                receipt_chain_hash := cons_signed_command_payload command
                  account.receipt_chain_hash
                timing := timing }))

/-!  Component F: fee transfers (`transaction_logic.rs`). -/

/-- Embeds `OneOrTwo<T>`. -/
inductive OneOrTwo (α : Type)
  | One (a : α)
  | Two (a b : α)
deriving DecidableEq, Repr

/-- Embeds `FeeTransferInner` (transaction_logic.rs lines 102-106). -/
structure FeeTransferInner where
  receiver_pk : Nat
  fee : Nat
  fee_token : Nat
deriving DecidableEq, Repr

/-- Embeds `FeeTransferInner::receiver`
(transaction_logic.rs lines 109-114). -/
def FeeTransferInner.receiver (ft : FeeTransferInner) : AccountId :=
  { public_key := ft.receiver_pk, token_id := ft.fee_token }

/-- Embeds `FeeTransfer` (transaction_logic.rs line 119). -/
abbrev FeeTransfer : Type := OneOrTwo FeeTransferInner

/-- Fee tokens of the one or two transfers, used for the default-token
check (transaction_logic.rs lines 130-132, 887). -/
def FeeTransfer.fee_tokens : FeeTransfer → List Nat
  | OneOrTwo.One a => [a.fee_token]
  | OneOrTwo.Two a b => [a.fee_token, b.fee_token]

/-- Embeds `ConstraintConstants` restricted to the fields the embedded
functions consume (spec section 6). -/
structure ConstraintConstants where
  account_creation_fee : Nat
  ledger_depth : Nat
deriving DecidableEq, Repr

/-- Embeds `sub_account_creation_fee`
(transaction_logic.rs lines 804-823). -/
def sub_account_creation_fee (constants : ConstraintConstants) (action : AccountState)
    (amount : Nat) : Except String Nat :=
  match action with
  | AccountState.Added =>
    match checkedSubU64 amount constants.account_creation_fee with
    | some amount => Except.ok amount
    | none => Except.error ("Error subtracting account creation fee")
  | AccountState.Existed => Except.ok amount

/-- Embeds `get_or_create` (transaction_logic.rs lines 834-857); the
tuple carries the mutated ledger; `none` models the
`expect("get_or_create: Account was not found ...")` panic (the database
error arm cannot occur in the unbounded ledger model). -/
def get_or_create (l : SimpleLedger) (id : AccountId) :
    Option (SimpleLedger × AccountState × Account × Nat) :=
  let r := get_or_create_account l id (Account.initialize_account id)
  match r.2 with
  | GetOrCreated.Added addr =>
    match ledger_get r.1 addr with
    | some account => some (r.1, AccountState.Added, account, addr)
    | none => none
  | GetOrCreated.Existed addr =>
    match ledger_get r.1 addr with
    | some account => some (r.1, AccountState.Existed, account, addr)
    | none => none

/-- Embeds `get_new_accounts` (transaction_logic.rs lines 859-864). -/
def get_new_accounts {α : Type} (action : AccountState) (data : α) : Option α :=
  match action with
  | AccountState.Added => some data
  | AccountState.Existed => none

/-- Embeds `has_permission_to_receive`
(transaction_logic.rs lines 1036-1062); `none` models the
`panic!("Ledger location with no account")`. -/
def has_permission_to_receive (l : SimpleLedger) (receiver_account_id : AccountId) :
    Option (Account × AccountState × Bool) :=
  let init_account := Account.initialize_account receiver_account_id
  match location_of_account l receiver_account_id with
  | none => some (init_account, AccountState.Added, init_account.receive_allowed)
  | some location =>
    match ledger_get l location with
    | none => none
    | some receiver_account =>
      some (receiver_account, AccountState.Existed, receiver_account.receive_allowed)

/-- Result of `process_fee_transfer`: mutated ledger, new accounts,
aggregated failures, burned tokens. -/
structure ProcessedFeeTransfer where
  ledger : SimpleLedger
  new_accounts : List AccountId
  failures : List (List TransactionFailure)
  burned_tokens : Nat
deriving DecidableEq, Repr

/-- Embeds `process_fee_transfer` (transaction_logic.rs lines 876-1024),
generic in the balance and timing modifiers exactly as the source is;
the outer `Option` models panics reached inside the modifiers or the
ledger helpers. -/
def process_fee_transfer (l : SimpleLedger) (fee_transfer : FeeTransfer)
    (modify_balance : AccountState → AccountId → Nat → Nat → Option (Except String Nat))
    (modify_timing : Account → Option (Except String Timing)) :
    Option (Except String ProcessedFeeTransfer) :=
  if ¬ (fee_transfer.fee_tokens.all (fun t => t = tokenIdDefault)) then
    some (Except.error ("Cannot pay fees in non-default tokens."))
  else
    match fee_transfer with
    | OneOrTwo.One ft =>
      let account_id := ft.receiver
      match has_permission_to_receive l account_id with
      | none => none
      | some (a, action, can_receive) =>
        match modify_timing a with
        | none => none
        | some (Except.error e) => some (Except.error e)
        | some (Except.ok timing) =>
          match modify_balance action account_id a.balance ft.fee with
          | none => none
          | some (Except.error e) => some (Except.error e)
          | some (Except.ok balance) =>
            if can_receive then
              match get_or_create l account_id with
              | none => none
              | some (l1, _, account, loc) =>
                let new_accounts := get_new_accounts action account_id
                let account := { account with balance := balance, timing := timing }
                let l2 := ledger_set l1 loc account
                some (Except.ok
                  { ledger := l2, new_accounts := new_accounts.toList, failures := [],
                    burned_tokens := 0 })
            else
              some (Except.ok
                { ledger := l, new_accounts := [], failures := single_failure,
                  burned_tokens := ft.fee })
    | OneOrTwo.Two ft1 ft2 =>
      let account_id1 := ft1.receiver
      match has_permission_to_receive l account_id1 with
      | none => none
      | some (a1, action1, can_receive1) =>
        let account_id2 := ft2.receiver
        if account_id1 = account_id2 then
          match checkedAddU64 ft1.fee ft2.fee with
          | none => some (Except.error ("Overflow"))
          | some fee =>
            match modify_timing a1 with
            | none => none
            | some (Except.error e) => some (Except.error e)
            | some (Except.ok timing) =>
              match modify_balance action1 account_id1 a1.balance fee with
              | none => none
              | some (Except.error e) => some (Except.error e)
              | some (Except.ok balance) =>
                if can_receive1 then
                  match get_or_create l account_id1 with
                  | none => none
                  | some (l1, _, account, loc) =>
                    let new_accounts1 := get_new_accounts action1 account_id1
                    let account := { account with balance := balance, timing := timing }
                    let l2 := ledger_set l1 loc account
                    some (Except.ok
                      { ledger := l2, new_accounts := new_accounts1.toList,
                        failures := [[], []], burned_tokens := 0 })
                else
                  some (Except.ok
                    { ledger := l, new_accounts := [],
                      failures := [[TransactionFailure.Update_not_permitted_balance],
                        [TransactionFailure.Update_not_permitted_balance]],
                      burned_tokens := fee })
        else
          match has_permission_to_receive l account_id2 with
          | none => none
          | some (a2, action2, can_receive2) =>
            match modify_balance action1 account_id1 a1.balance ft1.fee with
            | none => none
            | some (Except.error e) => some (Except.error e)
            | some (Except.ok balance1) =>
              match modify_timing a2 with
              | none => none
              | some (Except.error e) => some (Except.error e)
              | some (Except.ok timing2) =>
                match modify_balance action2 account_id2 a2.balance ft2.fee with
                | none => none
                | some (Except.error e) => some (Except.error e)
                | some (Except.ok balance2) =>
                  let step1 : Option (SimpleLedger × Option AccountId ×
                      List TransactionFailure × Nat) :=
                    if can_receive1 then
                      match get_or_create l account_id1 with
                      | none => none
                      | some (l1, _, account, loc) =>
                        let new_accounts1 := get_new_accounts action1 account_id1
                        let account := { account with balance := balance1 }
                        some (ledger_set l1 loc account, new_accounts1, [], 0)
                    else
                      some (l, none, [TransactionFailure.Update_not_permitted_balance],
                        ft1.fee)
                  match step1 with
                  | none => none
                  | some (l1, new_accounts1, failures1, burned_tokens1) =>
                    let step2 : Option (SimpleLedger × Option AccountId ×
                        List TransactionFailure × Nat) :=
                      if can_receive2 then
                        match get_or_create l1 account_id2 with
                        | none => none
                        | some (l2, _, account, loc) =>
                          let new_accounts2 := get_new_accounts action2 account_id2
                          let account :=
                            { account with balance := balance2, timing := timing2 }
                          some (ledger_set l2 loc account, new_accounts2, [], 0)
                      else
                        some (l1, none, [TransactionFailure.Update_not_permitted_balance],
                          ft2.fee)
                    match step2 with
                    | none => none
                    | some (l2, new_accounts2, failures2, burned_tokens2) =>
                      match checkedAddU64 burned_tokens1 burned_tokens2 with
                      | none => some (Except.error ("burned tokens overflow"))
                      | some burned_tokens =>
                        some (Except.ok
                          { ledger := l2
                            new_accounts :=
                              new_accounts1.toList ++ new_accounts2.toList
                            failures := [failures1, failures2]
                            burned_tokens := burned_tokens })

/-- Balance modifier passed by `apply_fee_transfer`
(transaction_logic.rs lines 777-783): convert the fee to an amount,
subtract the account-creation fee for new accounts, credit. -/
def ft_modify_balance (constants : ConstraintConstants) :
    AccountState → AccountId → Nat → Nat → Option (Except String Nat) :=
  fun action _ balance fee =>
    some (match sub_account_creation_fee constants action fee with
      | Except.error e => Except.error e
      | Except.ok amount => add_amount balance amount)

/-- Timing modifier passed by `apply_fee_transfer`
(transaction_logic.rs line 784). -/
def ft_modify_timing (txn_global_slot : Nat) : Account → Option (Except String Timing) :=
  fun account => update_timing_when_no_deduction txn_global_slot account

/-- Status computation of `apply_fee_transfer`
(transaction_logic.rs lines 787-791): `Applied` iff every failure bucket
is empty. -/
def fee_transfer_status (failures : List (List TransactionFailure)) : TransactionStatus :=
  if failures.all List.isEmpty then TransactionStatus.Applied
  else TransactionStatus.Failed failures

/-- Embeds `FeeTransferApplied` (transaction_logic.rs lines 528-532). -/
structure FeeTransferApplied where
  fee_transfer : WithStatus FeeTransfer
  new_accounts : List AccountId
  burned_tokens : Nat
deriving DecidableEq, Repr

/-- Embeds `apply_fee_transfer` (transaction_logic.rs lines 765-801);
the mutated ledger is returned alongside the applied record. -/
def apply_fee_transfer (constants : ConstraintConstants) (txn_global_slot : Nat)
    (l : SimpleLedger) (fee_transfer : FeeTransfer) :
    Option (Except String (FeeTransferApplied × SimpleLedger)) :=
  match process_fee_transfer l fee_transfer (ft_modify_balance constants)
      (ft_modify_timing txn_global_slot) with
  | none => none
  | some (Except.error e) => some (Except.error e)
  | some (Except.ok r) =>
    some (Except.ok
      ({ fee_transfer := { data := fee_transfer, status := fee_transfer_status r.failures }
         new_accounts := r.new_accounts
         burned_tokens := r.burned_tokens }, r.ledger))

/-!  Component F: transaction dispatch (`transaction_logic.rs`). -/

/-- Embeds `Coinbase` (transaction_logic.rs lines 148-152). -/
structure Coinbase where
  receiver : Nat
  amount : Nat
  fee_transfer : FeeTransfer
deriving DecidableEq, Repr

/-- Embeds `SignedCommand` (transaction_logic.rs lines 224-228);
the signature is embedded as a number. -/
structure SignedCommand where
  payload : SignedCommandPayload
  signer : Nat
  signature : Nat
deriving DecidableEq, Repr

/-- Embeds `UserCommand` (transaction_logic.rs lines 489-492); the zkApp
command payload is irrelevant to `apply_transaction`, which panics on it
before inspecting it. -/
inductive UserCommand
  | SignedCommand (cmd : SignedCommand)
  | ZkAppCommand
deriving DecidableEq, Repr

/-- Embeds `Transaction` (transaction_logic.rs lines 494-498). -/
inductive Transaction
  | Command (cmd : UserCommand)
  | FeeTransfer (ft : FeeTransfer)
  | Coinbase (cb : Coinbase)
deriving DecidableEq, Repr

/-- Merkle-root values, embedded as an injective free construction:
`ledgerRoot` is `BaseLedger::merkle_root` of a simple-ledger state;
`leafHash`, `emptyAtDepth` and `hashNode` are `V2::hash_leaf`,
`V2::empty_hash_at_depth` and `V2::hash_node` (the hashing module is
not under the sources; modelled from the spec, section 4.A:
deterministic, pure, domain-separated by height). -/
inductive MerkleHash
  | ledgerRoot (l : List Account)
  | leafHash (a : Account)
  | emptyAtDepth (k : Nat)
  | hashNode (height : Nat) (l r : MerkleHash)
deriving DecidableEq, Repr

/-- Embeds `BaseLedger::merkle_root` for the simple ledger model. -/
def merkle_root (l : SimpleLedger) : MerkleHash :=
  MerkleHash.ledgerRoot l

/-- Embeds `Varying` (transaction_logic.rs lines 544-548) restricted to
the constructible arm: `apply_transaction` panics (`todo!`) on the
command and coinbase arms before building their applied records. -/
inductive Varying
  | FeeTransfer (fta : FeeTransferApplied)
deriving DecidableEq, Repr

/-- Embeds `TransactionApplied` (transaction_logic.rs lines 552-555). -/
structure TransactionApplied where
  previous_hash : MerkleHash
  varying : Varying
deriving DecidableEq, Repr

/-- Protocol-state view restricted to the field `apply_transaction`
reads (transaction_logic.rs line 744). -/
structure ProtocolStateView where
  global_slot_since_genesis : Nat
deriving DecidableEq, Repr

/-- Embeds `apply_transaction` (transaction_logic.rs lines 731-762):
records the pre-mutation Merkle root, then dispatches; the signed
command, zkApp command and coinbase arms are `todo!()` panics, embedded
as `none`. -/
def apply_transaction (constants : ConstraintConstants) (txn_state_view : ProtocolStateView)
    (l : SimpleLedger) (transaction : Transaction) :
    Option (Except String (TransactionApplied × SimpleLedger)) :=
  let previous_hash := merkle_root l
  let txn_global_slot := txn_state_view.global_slot_since_genesis
  match transaction with
  | Transaction.Command (UserCommand.SignedCommand _) => none
  | Transaction.Command UserCommand.ZkAppCommand => none
  | Transaction.FeeTransfer fee_transfer =>
    match apply_fee_transfer constants txn_global_slot l fee_transfer with
    | none => none
    | some (Except.error e) => some (Except.error e)
    | some (Except.ok (fta, l')) =>
      some (Except.ok
        ({ previous_hash := previous_hash, varying := Varying.FeeTransfer fta }, l'))
  | Transaction.Coinbase _ => none

/-!  Component G: zkApp per-update account edits (`zkapp_logic.rs`). -/

/-- Embeds `SetOrKeep<T>` (transaction_logic.rs lines 270-273; the
second constructor is spelled `Kepp` in the source). -/
inductive SetOrKeep (α : Type)
  | Set (v : α)
  | Kepp
deriving DecidableEq, Repr

/-- Embeds `SetOrKeep::is_keep`. -/
def SetOrKeep.is_keep {α : Type} : SetOrKeep α → Bool
  | SetOrKeep.Kepp => true
  | SetOrKeep.Set _ => false

/-- Embeds `SetOrKeep::is_set`. -/
def SetOrKeep.is_set {α : Type} : SetOrKeep α → Bool
  | SetOrKeep.Kepp => false
  | SetOrKeep.Set _ => true

/-- Embeds `SetOrKeep::set_or_keep` (apply the update to a default). -/
def SetOrKeep.set_or_keep {α : Type} : SetOrKeep α → α → α
  | SetOrKeep.Set v, _ => v
  | SetOrKeep.Kepp, y => y

/-- The zkApp extension restricted to the fields the embedded step
touches: the eight app-state field elements (as `Nat`) and the
proved-state flag. -/
structure ZkAppAccount where
  app_state : List Nat
  proved_state : Bool
deriving DecidableEq, Repr

/-- Embeds the app-state / proved-state segment of the zkApp `apply`
step (zkapp_logic.rs lines 592-640): `proved_state` keeps the old flag
when every slot update is keep, becomes `true` on a verified proof that
sets all eight slots, keeps the old flag on a verified proof that sets
only some slots, and is `false` otherwise; then each slot is written
through its `SetOrKeep`. -/
def update_app_state_and_proved_state (app_state : List (SetOrKeep Nat))
    (proof_verifies : Bool) (zkapp : ZkAppAccount) : ZkAppAccount :=
  let keeping_app_state := app_state.all SetOrKeep.is_keep
  let changing_entire_app_state := app_state.all SetOrKeep.is_set
  let proved_state :=
    if keeping_app_state then zkapp.proved_state
    else if proof_verifies then
      if changing_entire_app_state then true else zkapp.proved_state
    else false
  let new_app_state :=
    (app_state.zip zkapp.app_state).map (fun p => p.1.set_or_keep p.2)
  { app_state := new_app_state, proved_state := proved_state }

/-- The proved-state value the specification asserts (spec section 4.G:
"proved iff (old proved-state and keep) or (proof verified and setting
all eight slots)"); kept for comparison with the source behaviour. -/
def spec_proved_state (app_state : List (SetOrKeep Nat)) (proof_verifies : Bool)
    (zkapp : ZkAppAccount) : Bool :=
  (zkapp.proved_state && app_state.all SetOrKeep.is_keep) ||
    (proof_verifies && app_state.all SetOrKeep.is_set)

/-!  Component G: zkApp command execution and ledger commit discipline
(`zkapp_logic.rs` lines 299-956).  The per-update validation body
(preconditions, authorization, permissions, field edits) is abstracted
into per-step input data; the excess accounting, failure recording and
global-ledger commit logic of the step are embedded from the source.
The local-state plumbing (`LocalStateEnv`, `add_check`,
`add_new_failure_status_bucket`, ledger cloning and `apply_mask`) is
not under the sources and is modelled from the spec (sections 4.G and
7): a failed check appends its failure to the current step's bucket and
clears `success`; at `is_start` the local ledger is cloned from the
global ledger; `set_ledger` copies the local ledger into the global
one. -/

/-- Ledger model for the zkApp loop: association list from account
location to account value. -/
abbrev ZkLedger : Type := List (Nat × Nat)

/-- Embeds `set_account` (write an account back to a ledger). -/
def set_account (l : ZkLedger) (loc v : Nat) : ZkLedger :=
  ainsert l loc v

/-- Abstracted data of one account update as consumed by the embedded
step: the written account, the local excess delta
(`negate(balance_change)`, positive for the fee payer), the sign bit of
that delta, whether the update's token is the default token, and the
failures recorded by the abstracted validation body of the step. -/
structure ZkStep where
  loc : Nat
  newAcc : Nat
  delta : Int
  deltaSgnPos : Bool
  tokenDefault : Bool
  failures : List TransactionFailure
deriving DecidableEq, Repr

/-- Local state of the zkApp loop restricted to the fields the embedded
step reads or writes. -/
structure ZkLocal where
  ledger : ZkLedger
  excess : Int
  success : Bool
  failure_status_tbl : List (List TransactionFailure)
deriving DecidableEq, Repr

/-- Global state of the zkApp loop restricted to the fields the embedded
step reads or writes. -/
structure ZkGlobal where
  ledger : ZkLedger
  fee_excess : Int
deriving DecidableEq, Repr

/-- Modelled from the spec: `add_new_failure_status_bucket` opens a
fresh (empty) failure bucket for the coming step. -/
def add_new_failure_status_bucket (l : ZkLocal) : ZkLocal :=
  { l with failure_status_tbl := [] :: l.failure_status_tbl }

/-- Modelled from the spec: `add_check` records the failure in the
current bucket and clears `success` when the checked condition is
false. -/
def add_check (l : ZkLocal) (t : TransactionFailure) (b : Bool) : ZkLocal :=
  if b then l
  else
    { l with
      failure_status_tbl :=
        match l.failure_status_tbl with
        | [] => [[t]]
        | h :: hs => (t :: h) :: hs
      success := false }

/-- Flagged addition of `Signed<Amount>`/`Signed<Fee>` values (modelled
from the spec, section 4.D): the sum together with the overflow flag. -/
def add_flagged (x y : Int) : Int × Bool :=
  (x + y, decide (¬ (x + y).natAbs ≤ u64Max))

/-- Embeds one step of the zkApp `apply` function restricted to its
ledger, excess and failure effects (zkapp_logic.rs lines 299-956,
v. the section comment): clone the global ledger at `is_start`, open
the step's failure bucket, record the abstracted body failures,
assert the fee payer pays in the default token with positive delta
(line 847), fold the delta into the local excess with overflow flagged
(lines 848-868), write the account (line 870), require a settled local
excess at the last update (lines 887-891), fold the local excess into
the global excess and commit the local ledger to the global ledger
exactly when the command segment ends with `success` still set
(lines 892-930), assert the fee payer's step succeeded (line 922), and
reset the per-command local state at the last update
(lines 931-954). -/
def zkapp_step (is_start is_last : Bool) (s : ZkStep) (g : ZkGlobal) (l : ZkLocal) :
    Option (ZkGlobal × ZkLocal) :=
  let l := if is_start then { l with ledger := g.ledger } else l
  let l := add_new_failure_status_bucket l
  let l := s.failures.foldl (fun acc t => add_check acc t false) l
  if is_start ∧ ¬ (s.tokenDefault ∧ s.deltaSgnPos) then none
  else
    let r := add_flagged l.excess s.delta
    let new_local_fee_excess := if s.tokenDefault then r.1 else l.excess
    let overflowed := s.tokenDefault && r.2
    let l := { l with excess := new_local_fee_excess }
    let l := add_check l TransactionFailure.Local_excess_overflow (!overflowed)
    let l := { l with ledger := set_account l.ledger s.loc s.newAcc }
    let valid_fee_excess := !is_last || decide (l.excess = 0)
    let l := add_check l TransactionFailure.Invalid_fee_excess valid_fee_excess
    let update_local_excess := is_start || is_last
    let update_global_state := update_local_excess && l.success
    let rg := add_flagged g.fee_excess l.excess
    let global_excess_update_failed := update_global_state && rg.2
    let update_global_state := update_global_state && !rg.2
    let g := { g with fee_excess := if update_global_state then rg.1 else g.fee_excess }
    let l := { l with excess := if update_local_excess then 0 else l.excess }
    let l := add_check l TransactionFailure.Global_excess_overflow
      (!global_excess_update_failed)
    if is_start ∧ ¬ l.success then none
    else
      let g := if update_global_state then { g with ledger := l.ledger } else g
      let l := if is_last then { l with ledger := [], success := true } else l
      some (g, l)

/-- Driver over the updates of one zkApp command: the first step runs
with `IsStart::Yes`, later steps with `IsStart::No`; a step is last when
no updates remain (modelled from the spec, section 4.G: one `apply` per
account update in forest pre-order). -/
def run_steps (s : ZkStep) (rest : List ZkStep) (is_start : Bool) (g : ZkGlobal)
    (l : ZkLocal) : Option (ZkGlobal × ZkLocal) :=
  match zkapp_step is_start rest.isEmpty s g l with
  | none => none
  | some (g', l') =>
    match rest with
    | [] => some (g', l')
    | s' :: rest' => run_steps s' rest' false g' l'

/-- Initial local state of a command (the `LocalState::dummy` fields the
model keeps: empty ledger, zero excess, `success`, empty failure
table; transaction_logic.rs lines 709-723). -/
def ZkLocal.initial : ZkLocal :=
  { ledger := [], excess := 0, success := true, failure_status_tbl := [] }

/-- Executes a full zkApp command (nonempty update list: the fee payer
is the first update) from a global state. -/
def run_zkapp_command : List ZkStep → ZkGlobal → Option (ZkGlobal × ZkLocal)
  | [], _ => none
  | s :: rest, g => run_steps s rest true g ZkLocal.initial

/-!  Components B and C: root Merkle database (`tree.rs`) and mask
overlay (`mask_impl.rs`).  Addresses in the embedded operations are
always leaf addresses and are represented by their index
(`Address::from_index` / `Address::to_index` are mutually inverse, spec
invariant P1). -/

/-- Embeds `Address::prev` on a leaf address: the previous index, or
none at index 0. -/
def addrPrev (addr : Nat) : Option Nat :=
  if addr = 0 then none else some (addr - 1)

/-- State of the root database `Database<V2>` (tree.rs lines 46-56)
restricted to the fields the embedded operations touch; `contents`
models the sparse tree's occupied leaves by index; `root_some` records
whether the lazily created tree root exists (`root: Option<...>`).  The
memoized `root_hash` cell is omitted: the embedded mask operations
compute roots through the mask emulation, which never reads it. -/
structure DbState where
  contents : List (Nat × Account)
  id_to_addr : List (AccountId × Nat)
  token_to_account : List (Nat × AccountId)
  last_location : Option Nat
  naccounts : Nat
  root_some : Bool
deriving DecidableEq, Repr

/-- Embeds `Database::get` (tree.rs lines 715-723). -/
def db_get (db : DbState) (addr : Nat) : Option Account :=
  alookup db.contents addr

/-- Embeds `Database::set` (tree.rs lines 741-773): drop the indices of
a previously occupying different account, insert the new account and its
indices, advance `last_location` monotonically. -/
def db_set (db : DbState) (addr : Nat) (account : Account) : DbState :=
  let db := { db with root_some := true }
  let db :=
    match alookup db.contents addr with
    | some old =>
      { db with
        id_to_addr := aremove db.id_to_addr old.id
        token_to_account := aremove db.token_to_account old.id.token_id }
    | none => { db with naccounts := db.naccounts + 1 }
  let db :=
    { db with
      token_to_account := ainsert db.token_to_account account.token_id account.id
      id_to_addr := ainsert db.id_to_addr account.id addr
      contents := ainsert db.contents addr account }
  if (db.last_location.map (fun last => decide (last < addr))).getD true then
    { db with last_location := some addr }
  else db

/-- Embeds `Database::remove_accounts` (tree.rs lines 876-919); `none`
models the `unwrap` on a missing id and the `expect` on an underflowing
account counter; the removals run over the addresses in descending
index order as in the source. -/
def db_remove_accounts (db : DbState) (ids : List AccountId) : Option DbState :=
  if ¬ db.root_some then some db
  else
    match omapM (fun i => alookup db.id_to_addr i) ids with
    | none => none
    | some addrs =>
      let db := { db with id_to_addr := ids.foldl (fun t i => aremove t i) db.id_to_addr }
      ((sortAsc addrs).reverse.foldlM (fun (db : DbState) addr =>
        match alookup db.contents addr with
        | none => some db
        | some account =>
          let db := { db with contents := aremove db.contents addr }
          let db :=
            { db with
              id_to_addr := aremove db.id_to_addr account.id
              token_to_account := aremove db.token_to_account account.id.token_id }
          match db.naccounts with
          | 0 => none
          | n + 1 =>
            let db := { db with naccounts := n }
            if db.last_location = some addr then
              some { db with last_location := addrPrev addr }
            else some db) db)

/-- State of an attached mask (`MaskImpl::Attached`, mask_impl.rs
lines 24-35) without the parent handle and child map, which are carried
by the worlds below. -/
structure MaskState where
  owning_account : List (Nat × Account)
  token_to_account : List (Nat × AccountId)
  id_to_addr : List (AccountId × Nat)
  last_location : Option Nat
  first_location_in_mask : Option Nat
  naccounts : Nat
deriving DecidableEq, Repr

/-- The empty attached mask. -/
def MaskState.empty : MaskState :=
  { owning_account := [], token_to_account := [], id_to_addr := [],
    last_location := none, first_location_in_mask := none, naccounts := 0 }

/-- Embeds the attached arm of `MaskImpl::get` (mask_impl.rs
lines 646-662): overlay first, then fall through to the parent. -/
def mask_get (parentGet : Nat → Option Account) (m : MaskState) (addr : Nat) :
    Option Account :=
  match alookup m.owning_account addr with
  | some account => some account
  | none => parentGet addr

/-- Embeds the attached arm of `MaskImpl::set_impl` after the
child-notification loop (mask_impl.rs lines 345-391); `existing` is the
fall-through `self.get(addr)` check. -/
def mask_set_impl (parentGet : Nat → Option Account) (m : MaskState) (addr : Nat)
    (account : Account) : MaskState :=
  let existing := (mask_get parentGet m addr).isSome
  let m :=
    { m with
      owning_account := ainsert m.owning_account addr account
      id_to_addr := ainsert m.id_to_addr account.id addr
      token_to_account := ainsert m.token_to_account account.token_id account.id }
  let m := if ¬ existing then { m with naccounts := m.naccounts + 1 } else m
  let m :=
    if (m.last_location.map (fun l => decide (l < addr))).getD true then
      { m with last_location := some addr }
    else m
  if (m.first_location_in_mask.map (fun l => decide (l > addr))).getD true then
    { m with first_location_in_mask := some addr }
  else m

/-- Body of the removal loop of `MaskImpl::remove_own_account`
(mask_impl.rs lines 300-322): remove the shadow at one address,
resetting `last_location` to the predecessor when the removed address
was last, and clearing both ends when it was the first location in the
mask.  `none` models the `unwrap` panics on a missing shadow or token
entry. -/
def remove_own_account_step (m : MaskState) (addr : Nat) : Option MaskState :=
  match alookup m.owning_account addr with
  | none => none
  | some account =>
    let m := { m with owning_account := aremove m.owning_account addr }
    match alookup m.token_to_account account.token_id with
    | none => none
    | some _ =>
      let m :=
        { m with token_to_account := aremove m.token_to_account account.token_id }
      let m :=
        if m.last_location = some addr then { m with last_location := addrPrev addr }
        else m
      let m :=
        if m.first_location_in_mask = some addr then
          { m with last_location := none, first_location_in_mask := none }
        else m
      some { m with naccounts := m.naccounts - 1 }

/-- Embeds `MaskImpl::remove_own_account` (mask_impl.rs lines 282-325):
collect and drop the ids' addresses, then run `remove_own_account_step`
over them in descending index order. -/
def remove_own_account (m : MaskState) (ids : List AccountId) : Option MaskState :=
  match omapM (fun i => alookup m.id_to_addr i) ids with
  | none => none
  | some addrs =>
    let m := { m with id_to_addr := ids.foldl (fun t i => aremove t i) m.id_to_addr }
    (sortAsc addrs).reverse.foldlM remove_own_account_step m

/-- Embeds `MaskImpl::parent_set_notify` (mask_impl.rs lines 161-191):
drop the local shadow of the written account's id exactly when the
shadowed value equals the parent's new value; `none` propagates a panic
from `remove_own_account`. -/
def parent_set_notify (account : Account) (m : MaskState) : Option MaskState :=
  match alookup m.id_to_addr account.id with
  | none => some m
  | some addr =>
    match alookup m.owning_account addr with
    | none => some m
    | some own_account =>
      if own_account ≠ account then some m
      else remove_own_account m [account.id]

/-- The shadow an attached mask holds for an id (its `id_to_addr` entry
resolved through `owning_account`), the lookup `parent_set_notify`
itself performs. -/
def mask_holds (m : MaskState) (id : AccountId) : Option Account :=
  match alookup m.id_to_addr id with
  | none => none
  | some addr => alookup m.owning_account addr

/-- Embeds the attached arm of `MaskImpl::last_filled` (mask_impl.rs
lines 605-633): the larger of the mask's own `last_location` and the
parent's last filled address. -/
def mask_last_filled (parentLast : Option Nat) (m : MaskState) : Option Nat :=
  match parentLast with
  | none => m.last_location
  | some pl =>
    match m.last_location with
    | none => some pl
    | some l => if pl < l then some l else some pl

/-- Embeds `MaskImpl::num_accounts` (mask_impl.rs lines 748-753):
`last_filled().index + 1` or 0. -/
def mask_num_accounts (parentLast : Option Nat) (m : MaskState) : Nat :=
  match mask_last_filled parentLast m with
  | some addr => addr + 1
  | none => 0

/-- Embeds `MaskImpl::emulate_recursive` (mask_impl.rs lines 253-280),
parameterised by the height `h = tree_depth - current_depth` of the
visited node; the returned pair carries the running `account_index`.  A
leaf is read at `from_index(account_index)` and the counter advances
only when an account is present; an elided right subtree at height
`h + 1` contributes `empty_hash_at_depth(tree_depth - current_depth)`,
i.e. `h + 1`. -/
def emulate_recursive (getAcc : Nat → Option Account) (naccounts : Nat) :
    Nat → Nat → MerkleHash × Nat
  | 0, account_index =>
    (match getAcc account_index with
     | some account => (MerkleHash.leafHash account, account_index + 1)
     | none => (MerkleHash.emptyAtDepth 0, account_index))
  | h + 1, account_index =>
    let left := emulate_recursive getAcc naccounts h account_index
    let right :=
      if left.2 < naccounts then emulate_recursive getAcc naccounts h left.2
      else (MerkleHash.emptyAtDepth (h + 1), left.2)
    (MerkleHash.hashNode (h + 1) left.1 right.1, right.2)

/-- Embeds `MaskImpl::emulate_tree_to_get_hash` /
`BaseLedger::merkle_root` for `MaskImpl` (mask_impl.rs lines 226-232,
706-708): both the root and the attached arm walk the whole tree with
the fall-through reader and `num_accounts()` leaves. -/
def emulate_tree_to_get_hash (getAcc : Nat → Option Account) (naccounts depth : Nat) :
    MerkleHash :=
  (emulate_recursive getAcc naccounts depth 0).1

/-- Merkle root of an attached mask over a root-database parent
(`merkle_root` through the mask emulation). -/
def mask_merkle_root (db : DbState) (m : MaskState) (depth : Nat) : MerkleHash :=
  emulate_tree_to_get_hash (mask_get (db_get db) m)
    (mask_num_accounts db.last_location m) depth

/-- Merkle root of a root-shaped mask wrapping a database:
`BaseLedger::merkle_root` on `MaskImpl::Root` also runs the emulation,
with `num_accounts()` resolved through `database.last_filled()`. -/
def root_mask_merkle_root (db : DbState) (depth : Nat) : MerkleHash :=
  emulate_tree_to_get_hash (db_get db)
    (match db.last_location with
     | some addr => addr + 1
     | none => 0) depth

/-- World of one attached mask over a root database of the given depth.
The database's only registered child is the mask itself, so the
`set_impl` notification loop during `commit` (which ignores the
committing child through `child_to_ignore`) notifies nobody, and a set
on the mask (whose own child map is empty) notifies nobody either. -/
structure OneMaskWorld where
  depth : Nat
  db : DbState
  mask : MaskState
deriving DecidableEq, Repr

/-- Public `set` through the mask of the world. -/
def w_set (w : OneMaskWorld) (addr : Nat) (account : Account) : OneMaskWorld :=
  { w with mask := mask_set_impl (db_get w.db) w.mask addr account }

/-- Public `get` through the mask of the world. -/
def w_get (w : OneMaskWorld) (addr : Nat) : Option Account :=
  mask_get (db_get w.db) w.mask addr

/-- Public `num_accounts` through the mask of the world. -/
def w_num_accounts (w : OneMaskWorld) : Nat :=
  mask_num_accounts w.db.last_location w.mask

/-- Embeds the attached arm of `MaskImpl::remove_accounts`
(mask_impl.rs lines 719-738): split the ids into locally shadowed ones
and parent-only ones, remove the latter in the parent database, the
former in the mask. -/
def w_remove_accounts (w : OneMaskWorld) (ids : List AccountId) : Option OneMaskWorld :=
  let mask_keys := ids.filter (fun i => (alookup w.mask.id_to_addr i).isSome)
  let parent_keys := ids.filter (fun i => ¬ (alookup w.mask.id_to_addr i).isSome)
  match (if parent_keys.isEmpty then some w.db else db_remove_accounts w.db parent_keys) with
  | none => none
  | some db =>
    match remove_own_account w.mask mask_keys with
    | none => none
    | some m => some { w with db := db, mask := m }

/-- Embeds `MaskImpl::commit` (mask_impl.rs lines 122-155): take the
pre-commit root of the mask, clear the three overlay maps, write every
overlay account into the parent (skipping the self-notification through
`child_to_ignore`), then assert that the parent's Merkle root equals the
pre-commit root; `none` models that assertion's panic.  `last_location`,
`first_location_in_mask` and `naccounts` are not cleared by the
source. -/
def w_commit (w : OneMaskWorld) : Option OneMaskWorld :=
  let old_root_hash := mask_merkle_root w.db w.mask w.depth
  let accounts := w.mask.owning_account
  let cleared :=
    { w.mask with owning_account := [], token_to_account := [], id_to_addr := [] }
  let db := accounts.foldl (fun db p => db_set db p.1 p.2) w.db
  if root_mask_merkle_root db w.depth = old_root_hash then
    some { w with db := db, mask := cleared }
  else none

/-- World of a root database with attached child masks, for the
parent-notification path of `set` (mask_impl.rs lines 327-347 on the
root shape). -/
structure RootParent where
  db : DbState
  childs : List MaskState
deriving DecidableEq, Repr

/-- Embeds `MaskImpl::set` / `set_impl` on the root shape
(mask_impl.rs lines 327-347, 670-672): every attached child is notified
(`child_to_ignore` is `None` on the public `set`), then the database is
written; a panic in any notification propagates. -/
def root_set (p : RootParent) (addr : Nat) (account : Account) : Option RootParent :=
  match omapM (parent_set_notify account) p.childs with
  | none => none
  | some childs => some { db := db_set p.db addr account, childs := childs }

/-!  Concrete inputs used by the counterexamples and witnesses. -/

/-- Empty root database state (`Database::create`). -/
def dbEmpty : DbState :=
  { contents := [], id_to_addr := [], token_to_account := [], last_location := none,
    naccounts := 0, root_some := false }

/-- Fee payer with `u32::MAX` nonce, sufficient balance and an expired
vesting schedule. -/
def c5_account : Account :=
  { public_key := 1, token_id := 1, balance := 100, nonce := 4294967295,
    receipt_chain_hash := ReceiptChainHash.init 0, timing := Timing.Timed 0 0 0 1 0,
    receive_allowed := true }

/-- Payload of the signed command paying the fee in `c5_account`. -/
def c5_payload : SignedCommandPayload :=
  { common :=
      { fee := 5, fee_token := 1, fee_payer_pk := 1, nonce := 4294967295
        valid_until := 0, memo := [] }
    body := PayloadBody.Payment 1 2 0 }

/-- Existing fee-transfer receiver that accepts the transfer. -/
def c6_account : Account :=
  { public_key := 1, token_id := 1, balance := 10, nonce := 0,
    receipt_chain_hash := ReceiptChainHash.init 0, timing := Timing.Timed 0 0 0 1 0,
    receive_allowed := true }

/-- Single fee transfer of fee 5 in the default token to `c6_account`. -/
def c6_transfer : FeeTransfer :=
  OneOrTwo.One { receiver_pk := 1, fee := 5, fee_token := 1 }

/-- Constraint constants with account-creation fee 1. -/
def cc1 : ConstraintConstants :=
  { account_creation_fee := 1, ledger_depth := 10 }

/-- Result of processing `c6_transfer` against `[c6_account]`: the fee
is credited, the vesting-complete timing collapses to untimed, and no
failure bucket is produced. -/
def c6_result : ProcessedFeeTransfer :=
  { ledger := [{ c6_account with balance := 15, timing := Timing.Untimed }]
    new_accounts := []
    failures := []
    burned_tokens := 0 }

/-- Concrete coinbase transaction (its content is irrelevant:
`apply_transaction` reaches `todo!()` before reading it). -/
def c1_coinbase : Coinbase :=
  { receiver := 1, amount := 10, fee_transfer := c6_transfer }

/-- Fee-payer step of the two-update zkApp commands below: writes
account value 5 at location 0, pays fee 1, no failures. -/
def c2_step1 : ZkStep :=
  { loc := 0, newAcc := 5, delta := 1, deltaSgnPos := true, tokenDefault := true,
    failures := [] }

/-- Second, failing update: writes account value 7 at location 1, zero
balance change, and its validation body records `Predicate`. -/
def c2_step2_fail : ZkStep :=
  { loc := 1, newAcc := 7, delta := 0, deltaSgnPos := false, tokenDefault := true,
    failures := [TransactionFailure.Predicate] }

/-- Second, succeeding update: same write, no failures. -/
def c2_step2_ok : ZkStep :=
  { loc := 1, newAcc := 7, delta := 0, deltaSgnPos := false, tokenDefault := true,
    failures := [] }

/-- Initial global state of the zkApp command scenarios. -/
def c2_g0 : ZkGlobal :=
  { ledger := [], fee_excess := 0 }

/-- Global state after running `[c2_step1, c2_step2_ok]` from `c2_g0`:
both writes visible, fee excess settled from the fee payer. -/
def c2_gf : ZkGlobal :=
  { ledger := [(1, 7), (0, 5)], fee_excess := 1 }

/-- Local state after running `[c2_step1, c2_step2_ok]` from `c2_g0`:
reset ledger and two empty failure buckets. -/
def c2_lf : ZkLocal :=
  { ledger := [], excess := 0, success := true, failure_status_tbl := [[], []] }

/-- Account with token 2 placed at index 0 of the mask scenarios. -/
def c3_a0 : Account :=
  { public_key := 1, token_id := 2, balance := 10, nonce := 0,
    receipt_chain_hash := ReceiptChainHash.init 0, timing := Timing.Untimed,
    receive_allowed := true }

/-- Account with token 3 placed at index 2 of the commit scenario. -/
def c3_a2 : Account :=
  { public_key := 2, token_id := 3, balance := 20, nonce := 0,
    receipt_chain_hash := ReceiptChainHash.init 0, timing := Timing.Untimed,
    receive_allowed := true }

/-- Depth-2 world of an empty database with an empty attached mask. -/
def c3_w0 : OneMaskWorld :=
  { depth := 2, db := dbEmpty, mask := MaskState.empty }

/-- Commit scenario: set accounts at indices 0 and 2 through the mask,
then remove the one at index 2 (its removal moves `last_location` to the
unoccupied index 1). -/
def c3_w2 : OneMaskWorld :=
  w_set (w_set c3_w0 0 c3_a0) 2 c3_a2

/-- Account with token 3 placed at index 1 of the `num_accounts`
scenario. -/
def c10_a1 : Account :=
  { public_key := 2, token_id := 3, balance := 20, nonce := 0,
    receipt_chain_hash := ReceiptChainHash.init 0, timing := Timing.Untimed,
    receive_allowed := true }

/-- Depth-1 world of an empty database with an empty attached mask. -/
def c10_w0 : OneMaskWorld :=
  { depth := 1, db := dbEmpty, mask := MaskState.empty }

/-- The `num_accounts` scenario: accounts at indices 0 and 1 through the
mask, then the account at the mask's first location is removed. -/
def c10_w2 : OneMaskWorld :=
  w_set (w_set c10_w0 0 c3_a0) 1 c10_a1

/-- Account written by the parent in the notification scenarios
(token 5). -/
def c4_a : Account :=
  { public_key := 1, token_id := 5, balance := 10, nonce := 0,
    receipt_chain_hash := ReceiptChainHash.init 0, timing := Timing.Untimed,
    receive_allowed := true }

/-- Second account sharing token 5, shadowed at index 1. -/
def c4_c : Account :=
  { public_key := 2, token_id := 5, balance := 20, nonce := 0,
    receipt_chain_hash := ReceiptChainHash.init 0, timing := Timing.Untimed,
    receive_allowed := true }

/-- Child mask holding `c4_a` at index 0 (token entry present). -/
def c4_m1 : MaskState :=
  mask_set_impl (db_get dbEmpty) MaskState.empty 0 c4_a

/-- Child mask holding `c4_a` and `c4_c`, both with token 5. -/
def c4_m2 : MaskState :=
  mask_set_impl (db_get dbEmpty) c4_m1 1 c4_c

/-- App-state update of the proved-state scenario: the first slot is
set, the remaining seven are kept. -/
def c9_update : List (SetOrKeep Nat) :=
  SetOrKeep.Set 7 :: List.replicate 7 SetOrKeep.Kepp

/-!  Auxiliary lemmas. -/

theorem alookup_aremove_self {α β : Type} [DecidableEq α] (l : List (α × β)) (k : α) :
    alookup (aremove l k) k = none := by
  simp only [alookup, aremove, Option.map_eq_none']
  rw [List.find?_eq_none]
  intro x hx
  simp only [List.mem_filter] at hx
  simpa using hx.2

theorem omapM_some_length {α β : Type} (f : α → Option β) :
    ∀ (l : List α) (l' : List β), omapM f l = some l' → l'.length = l.length := by
  intro l
  induction l with
  | nil => intro l' h; simp [omapM] at h; simp [← h]
  | cons a t ih =>
    intro l' h
    simp only [omapM] at h
    cases hfa : f a with
    | none => rw [hfa] at h; simp at h
    | some b =>
      rw [hfa] at h
      cases hrest : omapM f t with
      | none => rw [hrest] at h; simp at h
      | some bs =>
        rw [hrest] at h
        simp at h
        subst h
        simp [ih bs hrest]

theorem omapM_some_get {α β : Type} (f : α → Option β) :
    ∀ (l : List α) (l' : List β), omapM f l = some l' →
    ∀ (i : Nat) (hi : i < l.length) (hi' : i < l'.length),
      f (l.get ⟨i, hi⟩) = some (l'.get ⟨i, hi'⟩) := by
  intro l
  induction l with
  | nil => intro l' h i hi; exact absurd hi (by simp)
  | cons a t ih =>
    intro l' h i hi hi'
    simp only [omapM] at h
    cases hfa : f a with
    | none => rw [hfa] at h; simp at h
    | some b =>
      rw [hfa] at h
      cases hrest : omapM f t with
      | none => rw [hrest] at h; simp at h
      | some bs =>
        rw [hrest] at h
        simp at h
        subst h
        cases i with
        | zero => simp [hfa]
        | succ j =>
          have hj : j < t.length := by simpa using hi
          have hj' : j < bs.length := by simpa using hi'
          simpa using ih bs hrest j hj hj'

theorem fee_transfer_status_applied_iff (failures : List (List TransactionFailure)) :
    fee_transfer_status failures = TransactionStatus.Applied ↔
      failures.all List.isEmpty := by
  by_cases h : failures.all List.isEmpty
  · simp [fee_transfer_status, h]
  · simp [fee_transfer_status, h]

/-!  Claim theorems. -/

/-- C1 (counterexample): `apply_transaction` does not return a result on
the coinbase variant: it reaches `todo!()` and panics (`none`), so the
claim that it returns a `Result` without panicking on every variant is
false. -/
theorem c1_apply_transaction_panics_on_coinbase :
    apply_transaction cc1 { global_slot_since_genesis := 0 } []
      (Transaction.Coinbase c1_coinbase) = none := by
  rfl

/-- C1 (amended): on the fee-transfer variant, whenever
`apply_transaction` returns an applied record, its `previous_hash` is
the Merkle root of the ledger before any mutation. -/
theorem c1_fee_transfer_previous_hash (constants : ConstraintConstants)
    (view : ProtocolStateView) (l : SimpleLedger) (ft : FeeTransfer)
    (ta : TransactionApplied) (l' : SimpleLedger)
    (h : apply_transaction constants view l (Transaction.FeeTransfer ft) =
      some (Except.ok (ta, l'))) :
    ta.previous_hash = merkle_root l := by
  simp only [apply_transaction] at h
  cases hft : apply_fee_transfer constants view.global_slot_since_genesis l ft with
  | none => rw [hft] at h; exact absurd h (by simp)
  | some r =>
    rw [hft] at h
    cases r with
    | error e => exact absurd h (by simp)
    | ok p =>
      simp only [Option.some.injEq, Except.ok.injEq, Prod.mk.injEq] at h
      obtain ⟨h1, h2⟩ := h
      subst h1
      rfl

/-- C1 (witness for the amended theorem). -/
theorem c1_fee_transfer_previous_hash_witness :
    (TransactionApplied.mk (merkle_root [c6_account])
      (Varying.FeeTransfer
        { fee_transfer := { data := c6_transfer, status := TransactionStatus.Applied }
          new_accounts := [], burned_tokens := 0 })).previous_hash =
      merkle_root [c6_account] :=
  c1_fee_transfer_previous_hash cc1 { global_slot_since_genesis := 0 } [c6_account]
    c6_transfer _ [{ c6_account with balance := 15, timing := Timing.Untimed }]
    rfl

/-- C5 (code evaluation at the failing input): paying a fee from
`c5_account`, whose nonce is `u32::MAX`, succeeds and returns the
account with its nonce wrapped around to 0 (the source uses
`wrapping_add(1)`), instead of the error on overflow the specification
mandates. -/
theorem c5_nonce_wraps_at_u32_max :
    pay_fee_impl c5_payload 4294967295 { public_key := 1, token_id := 1 } 5
      [c5_account] 0 =
    some (Except.ok (ExistingOrNew.Existing 0,
      { c5_account with
        balance := 95
        nonce := 0
        receipt_chain_hash := cons_signed_command_payload c5_payload
          (ReceiptChainHash.init 0)
        timing := Timing.Untimed })) := by
  rfl

/-- C10 (code evaluation at the failing input): after creating accounts
at indices 0 and 1 through an attached mask over an empty database and
removing the account at the mask's first location, `num_accounts()`
returns 0 although the account at index 1 is still present
(`remove_own_account` resets `last_location` when removing the first
location). -/
theorem c10_num_accounts_zero_with_account_present :
    (w_remove_accounts c10_w2 [c3_a0.id]).map
      (fun w => (w_num_accounts w, w_get w 1)) = some (0, some c10_a1) := by
  rfl

/-- C3 (code evaluation at the failing input): after creating accounts
at indices 0 and 2 through an attached mask over an empty database and
removing the account at index 2 (which moves the mask's `last_location`
to the unoccupied index 1), the remove succeeds but `commit` panics on
its own assertion that the parent's Merkle root equals the pre-commit
root of the mask. -/
theorem c3_commit_root_assertion_fails :
    ((w_remove_accounts c3_w2 [c3_a2.id]).isSome = true) ∧
      (w_remove_accounts c3_w2 [c3_a2.id]).bind w_commit = none := by
  constructor
  · rfl
  · rfl

/-- C4 (counterexample): a reachable child mask (`c4_m2` after removing
`c4_c`, which shares token 5 with `c4_a` and whose removal deletes the
token entry) still shadows exactly `c4_a`, yet when the parent writes
`c4_a` the notification does not prune the shadow: it panics (`none`)
unwrapping the missing token entry, so the claimed
drop-if-equal behaviour fails. -/
theorem c4_notify_panics_instead_of_pruning :
    ((remove_own_account c4_m2 [c4_c.id]).map
      (fun m => mask_holds m c4_a.id) = some (some c4_a)) ∧
      (remove_own_account c4_m2 [c4_c.id]).bind
        (fun m => root_set { db := dbEmpty, childs := [m] } 0 c4_a) = none := by
  constructor
  · rfl
  · rfl

/-- C6 (counterexample): a single-receiver fee transfer accepted with a
successful receiver returns the failures vector `[]` (no buckets), not
the claimed `[[]]`. -/
theorem c6_single_success_failures_empty :
    process_fee_transfer [c6_account] c6_transfer (ft_modify_balance cc1)
      (ft_modify_timing 0) =
      some (Except.ok
        { ledger := [{ c6_account with balance := 15, timing := Timing.Untimed }]
          new_accounts := [], failures := [], burned_tokens := 0 }) ∧
      ([] : List (List TransactionFailure)) ≠ [[]] := by
  exact ⟨rfl, by decide⟩

/-- C9 (counterexample): with the old proved-state flag set, a verified
proof whose update sets only the first of the eight app-state slots
leaves the flag `true`, while the specification's formula
(`(old ∧ keep) ∨ (proof ∧ all-set)`) demands `false`. -/
theorem c9_partial_proof_keeps_proved_state :
    (update_app_state_and_proved_state c9_update true
      { app_state := List.replicate 8 0, proved_state := true }).proved_state = true ∧
    spec_proved_state c9_update true
      { app_state := List.replicate 8 0, proved_state := true } = false := by
  exact ⟨rfl, rfl⟩

/-- C2 (counterexample): a two-update zkApp command whose second update
records a failure leaves the global ledger holding the fee payer's
write `(0, 5)`, not the pre-command (empty) ledger the claim
demands. -/
theorem c2_failed_command_keeps_fee_payer_write :
    run_zkapp_command [c2_step1, c2_step2_fail] c2_g0 =
      some ({ ledger := [(0, 5)], fee_excess := 1 },
        { ledger := [], excess := 0, success := true,
          failure_status_tbl := [[TransactionFailure.Predicate], []] }) ∧
    ¬ ([[TransactionFailure.Predicate], []].all List.isEmpty = true) ∧
    ([(0, 5)] : ZkLedger) ≠ c2_g0.ledger := by
  refine ⟨rfl, by decide, by decide⟩

/-- C9 (amended): for an eight-slot app-state update, the resulting
proved-state flag equals (old proved-state AND (all keep OR proof
verified)) OR (proof verified AND all eight slots set): a verified
proof that sets only some slots keeps the old flag; with no verified
proof and any slot set the flag is false. -/
theorem c9_proved_state_characterisation (u : List (SetOrKeep Nat)) (pv : Bool)
    (z : ZkAppAccount) (h : u.length = 8) :
    (update_app_state_and_proved_state u pv z).proved_state =
      ((z.proved_state && (u.all SetOrKeep.is_keep || pv)) ||
        (pv && u.all SetOrKeep.is_set)) := by
  have hks : ¬(u.all SetOrKeep.is_keep = true ∧ u.all SetOrKeep.is_set = true) := by
    cases u with
    | nil => simp at h
    | cons x xs =>
      rintro ⟨h1, h2⟩
      rw [List.all_cons, Bool.and_eq_true] at h1 h2
      cases x with
      | Kepp => exact absurd h2.1 (by simp [SetOrKeep.is_set])
      | Set v => exact absurd h1.1 (by simp [SetOrKeep.is_keep])
  unfold update_app_state_and_proved_state
  dsimp only
  generalize hK : u.all SetOrKeep.is_keep = K at *
  generalize hS : u.all SetOrKeep.is_set = S at *
  cases K <;> cases S <;> cases pv <;> cases z.proved_state <;> simp_all

/-- C9 (witness for the amended theorem). -/
theorem c9_proved_state_characterisation_witness :
    (update_app_state_and_proved_state c9_update true
      { app_state := List.replicate 8 0, proved_state := true }).proved_state =
      ((true && (c9_update.all SetOrKeep.is_keep || true)) ||
        (true && c9_update.all SetOrKeep.is_set)) :=
  c9_proved_state_characterisation c9_update true
    { app_state := List.replicate 8 0, proved_state := true } (by decide)

set_option linter.unnecessarySeqFocus false in
theorem account_min_balance_closed_form (s ct ca vp vi imb : Nat) :
    account_min_balance_at_slot s ct ca vp vi imb =
      if s < ct then imb
      else if vp = 0 then 0
      else (imb - ca) -
        (if (s - ct) / vp ≠ 0 ∧ u64Max / ((s - ct) / vp) < vi then u64Max
         else ((s - ct) / vp) * vi) := by
  by_cases h1 : s < ct
  · simp [account_min_balance_at_slot, h1]
  · by_cases h2 : vp = 0
    · simp [account_min_balance_at_slot, h1, h2]
    · by_cases h3 : ca ≤ imb
      · by_cases h4 : ((s - ct) / vp ≠ 0 ∧ u64Max / ((s - ct) / vp) < vi)
        · by_cases h5 : u64Max ≤ imb - ca <;>
            simp [account_min_balance_at_slot, h1, h2, h3, h4, h5, checkedSubU64] <;>
            omega
        · by_cases h5 : ((s - ct) / vp) * vi ≤ imb - ca <;>
            simp [account_min_balance_at_slot, h1, h2, h3, h4, h5, checkedSubU64] <;>
            omega
      · simp [account_min_balance_at_slot, h1, h2, h3, checkedSubU64]
        omega

theorem vesting_decrement_mono (vi np1 np2 : Nat) (hle : np1 ≤ np2) :
    (if np1 ≠ 0 ∧ u64Max / np1 < vi then u64Max else np1 * vi) ≤
      (if np2 ≠ 0 ∧ u64Max / np2 < vi then u64Max else np2 * vi) := by
  by_cases h1 : (np1 ≠ 0 ∧ u64Max / np1 < vi)
  · rw [if_pos h1]
    by_cases h2 : (np2 ≠ 0 ∧ u64Max / np2 < vi)
    · rw [if_pos h2]
    · exfalso
      have hp1 : 0 < np1 := Nat.pos_of_ne_zero h1.1
      have hd : u64Max / np2 ≤ u64Max / np1 := Nat.div_le_div_left hle hp1
      exact h2 ⟨by omega, lt_of_le_of_lt hd h1.2⟩
  · rw [if_neg h1]
    by_cases h2 : (np2 ≠ 0 ∧ u64Max / np2 < vi)
    · rw [if_pos h2]
      rcases Nat.eq_zero_or_pos np1 with hz | hp
      · simp [hz]
      · have hvi : vi ≤ u64Max / np1 := by
          rcases not_and_or.mp h1 with hc | hc
          · omega
          · omega
        calc np1 * vi ≤ np1 * (u64Max / np1) := Nat.mul_le_mul_left np1 hvi
          _ ≤ u64Max := by
              rw [Nat.mul_comm]
              exact Nat.div_mul_le_self u64Max np1
    · rw [if_neg h2]
      exact Nat.mul_le_mul_right vi hle

/-- C7: for a fixed timed-account schedule, the computed minimum balance
is non-increasing in the global slot: for `s1 < s2`,
`min_balance_at_slot(s1) >= min_balance_at_slot(s2)`. -/
theorem c7_min_balance_antitone (ct ca vp vi imb s1 s2 : Nat) (h : s1 < s2) :
    account_min_balance_at_slot s2 ct ca vp vi imb ≤
      account_min_balance_at_slot s1 ct ca vp vi imb := by
  rw [account_min_balance_closed_form, account_min_balance_closed_form]
  by_cases h1 : s1 < ct
  · by_cases h2 : s2 < ct
    · simp [h1, h2]
    · simp only [h1, if_true, h2, if_false]
      by_cases h3 : vp = 0
      · simp [h3]
      · simp only [h3, if_false]
        omega
  · have h2 : ¬ s2 < ct := by omega
    simp only [h1, h2, if_false]
    by_cases h3 : vp = 0
    · simp [h3]
    · simp only [h3, if_false]
      have hnp : (s1 - ct) / vp ≤ (s2 - ct) / vp :=
        Nat.div_le_div_right (Nat.sub_le_sub_right (le_of_lt h) ct)
      have := vesting_decrement_mono vi ((s1 - ct) / vp) ((s2 - ct) / vp) hnp
      omega

/-- C7 (witness). -/
theorem c7_min_balance_antitone_witness :
    account_min_balance_at_slot 25 10 100 5 40 1000 ≤
      account_min_balance_at_slot 12 10 100 5 40 1000 :=
  c7_min_balance_antitone 10 100 5 40 1000 12 25 (by decide)

theorem rebalance_combine (tl tr : Nat) (el er : Int)
    (h1 : (if el = 0 then tr else tl) = tr) (hov : (el + er).natAbs ≤ u64Max) :
    rebalance { fee_token_l := tl, fee_excess_l := el, fee_token_r := tr, fee_excess_r := er } =
      some (rebalancePost (if el = 0 then tr else tl) tr (el + er) 0) := by
  simp only [rebalance, signedFeeAdd]
  rw [if_pos h1, if_pos hov]

theorem rebalance_nocombine (tl tr : Nat) (el er : Int)
    (h1 : ¬ (if el = 0 then tr else tl) = tr) :
    rebalance { fee_token_l := tl, fee_excess_l := el, fee_token_r := tr, fee_excess_r := er } =
      some (rebalancePost (if el = 0 then tr else tl) tr el er) := by
  simp only [rebalance, signedFeeAdd]
  rw [if_neg h1]

theorem rebalance_combine_overflow (tl tr : Nat) (el er : Int)
    (h1 : (if el = 0 then tr else tl) = tr) (hov : ¬ (el + er).natAbs ≤ u64Max) :
    rebalance { fee_token_l := tl, fee_excess_l := el, fee_token_r := tr, fee_excess_r := er } =
      none := by
  simp only [rebalance, signedFeeAdd]
  rw [if_pos h1, if_neg hov]

/-- C8: `rebalance` is idempotent on every fee excess whose magnitudes
are in `u64` range and on which it does not overflow; and when both fee
tokens of the input are equal, the rebalanced result has zero right
excess (the excesses are combined into the left slot). -/
theorem c8_rebalance_canonical (fe y : FeeExcess)
    (hl : fe.fee_excess_l.natAbs ≤ u64Max) (hr : fe.fee_excess_r.natAbs ≤ u64Max)
    (h : rebalance fe = some y) :
    rebalance y = some y ∧ (fe.fee_token_l = fe.fee_token_r → y.fee_excess_r = 0) := by
  obtain ⟨tl, el, tr, er⟩ := fe
  simp only at hl hr
  by_cases h1 : (if el = 0 then tr else tl) = tr
  · by_cases hov : (el + er).natAbs ≤ u64Max
    · rw [rebalance_combine tl tr el er h1 hov] at h
      simp only [Option.some.injEq] at h
      subst h
      refine ⟨?_, fun _ => rfl⟩
      by_cases hz : el + er = 0
      · have hy : rebalancePost (if el = 0 then tr else tl) tr (el + er) 0 =
            { fee_token_l := tokenIdDefault, fee_excess_l := 0,
              fee_token_r := tokenIdDefault, fee_excess_r := 0 } := by
          simp [rebalancePost, hz]
        rw [hy]
        rw [rebalance_combine tokenIdDefault tokenIdDefault 0 0 (by simp) (by simp)]
        congr 1
      · have hy : rebalancePost (if el = 0 then tr else tl) tr (el + er) 0 =
            { fee_token_l := (if el = 0 then tr else tl), fee_excess_l := el + er,
              fee_token_r := tokenIdDefault, fee_excess_r := 0 } := by
          simp [rebalancePost, hz]
        rw [hy]
        by_cases hd : (if el = 0 then tr else tl) = tokenIdDefault
        · rw [rebalance_combine _ tokenIdDefault (el + er) 0 (by simp [hz, hd])
            (by simpa using hov)]
          congr 1
          simp [rebalancePost, hz, hd]
        · rw [rebalance_nocombine _ tokenIdDefault (el + er) 0 (by simp [hz, hd])]
          congr 1
          simp [rebalancePost, hz]
    · rw [rebalance_combine_overflow tl tr el er h1 hov] at h
      exact absurd h (by simp)
  · have hel : ¬ el = 0 := fun hz => h1 (by simp [hz])
    rw [rebalance_nocombine tl tr el er h1] at h
    simp only [Option.some.injEq] at h
    subst h
    have hT : (if el = 0 then tr else tl) = tl := if_neg hel
    rw [hT] at h1 ⊢
    refine ⟨?_, fun ht => absurd ht h1⟩
    by_cases hz2 : er = 0
    · have hy : rebalancePost tl tr el er =
          { fee_token_l := tl, fee_excess_l := el,
            fee_token_r := tokenIdDefault, fee_excess_r := 0 } := by
        simp [rebalancePost, hel, hz2]
      rw [hy]
      by_cases hd : tl = tokenIdDefault
      · rw [rebalance_combine tl tokenIdDefault el 0 (by simp [hel, hd])
          (by simpa using hl)]
        congr 1
        simp [rebalancePost, hel]
      · rw [rebalance_nocombine tl tokenIdDefault el 0 (by simp [hel, hd])]
        congr 1
        simp [rebalancePost, hel]
    · have hy : rebalancePost tl tr el er =
          { fee_token_l := tl, fee_excess_l := el,
            fee_token_r := tr, fee_excess_r := er } := by
        simp [rebalancePost, hel, hz2]
      rw [hy]
      rw [rebalance_nocombine tl tr el er (by simp [hel]; exact h1)]
      congr 1
      simp [rebalancePost, hel, hz2]

/-- C8 (witness). -/
theorem c8_rebalance_canonical_witness :
    rebalance { fee_token_l := 2, fee_excess_l := 2, fee_token_r := 1, fee_excess_r := 0 } =
      some { fee_token_l := 2, fee_excess_l := 2, fee_token_r := 1, fee_excess_r := 0 } ∧
    (({ fee_token_l := 2, fee_excess_l := 5, fee_token_r := 2,
        fee_excess_r := -3 } : FeeExcess).fee_token_l = 2 →
      ({ fee_token_l := 2, fee_excess_l := 2, fee_token_r := 1,
          fee_excess_r := 0 } : FeeExcess).fee_excess_r = 0) :=
  ⟨(c8_rebalance_canonical
      { fee_token_l := 2, fee_excess_l := 5, fee_token_r := 2, fee_excess_r := -3 }
      { fee_token_l := 2, fee_excess_l := 2, fee_token_r := 1, fee_excess_r := 0 }
      (by decide) (by decide) (by decide)).1,
    fun _ =>
      (c8_rebalance_canonical
        { fee_token_l := 2, fee_excess_l := 5, fee_token_r := 2, fee_excess_r := -3 }
        { fee_token_l := 2, fee_excess_l := 2, fee_token_r := 1, fee_excess_r := 0 }
        (by decide) (by decide) (by decide)).2 rfl⟩

theorem remove_own_account_step_id_to_addr (m m' : MaskState) (addr : Nat)
    (h : remove_own_account_step m addr = some m') :
    m'.id_to_addr = m.id_to_addr := by
  unfold remove_own_account_step at h
  cases h1 : alookup m.owning_account addr with
  | none => rw [h1] at h; exact absurd h (by simp)
  | some account =>
    rw [h1] at h
    dsimp only at h
    cases h2 : alookup m.token_to_account account.token_id with
    | none => rw [h2] at h; exact absurd h (by simp)
    | some owner =>
      rw [h2] at h
      dsimp only at h
      simp only [Option.some.injEq] at h
      subst h
      split_ifs <;> rfl

theorem foldlM_step_id_to_addr :
    ∀ (l : List Nat) (m m' : MaskState),
      List.foldlM remove_own_account_step m l = some m' →
      m'.id_to_addr = m.id_to_addr := by
  intro l
  induction l with
  | nil =>
    intro m m' h
    simp only [List.foldlM] at h
    simp at h
    rw [h]
  | cons a t ih =>
    intro m m' h
    simp only [List.foldlM] at h
    cases hs : remove_own_account_step m a with
    | none => rw [hs] at h; exact absurd h (by simp)
    | some m1 =>
      rw [hs] at h
      simp only [Option.bind_eq_bind, Option.some_bind] at h
      rw [ih m1 m' h, remove_own_account_step_id_to_addr m m1 a hs]

theorem remove_own_account_id_to_addr (m : MaskState) (ids : List AccountId)
    (m' : MaskState) (h : remove_own_account m ids = some m') :
    m'.id_to_addr = ids.foldl (fun t i => aremove t i) m.id_to_addr := by
  unfold remove_own_account at h
  cases ho : omapM (fun i => alookup m.id_to_addr i) ids with
  | none => rw [ho] at h; exact absurd h (by simp)
  | some addrs =>
    rw [ho] at h
    dsimp only at h
    exact foldlM_step_id_to_addr _ _ _ h

theorem parent_set_notify_drop (a : Account) (m m' : MaskState)
    (hh : mask_holds m a.id = some a)
    (h : parent_set_notify a m = some m') :
    mask_holds m' a.id = none := by
  unfold mask_holds at hh
  cases hid : alookup m.id_to_addr a.id with
  | none => rw [hid] at hh; exact absurd hh (by simp)
  | some addr =>
    rw [hid] at hh
    dsimp only at hh
    unfold parent_set_notify at h
    rw [hid] at h
    dsimp only at h
    rw [hh] at h
    dsimp only at h
    rw [if_neg (by simp)] at h
    have hidr := remove_own_account_id_to_addr m [a.id] m' h
    unfold mask_holds
    rw [hidr]
    simp only [List.foldl]
    rw [alookup_aremove_self]

theorem parent_set_notify_keep_diff (a b : Account) (m m' : MaskState)
    (hh : mask_holds m a.id = some b) (hne : b ≠ a)
    (h : parent_set_notify a m = some m') : m' = m := by
  unfold mask_holds at hh
  cases hid : alookup m.id_to_addr a.id with
  | none => rw [hid] at hh; exact absurd hh (by simp)
  | some addr =>
    rw [hid] at hh
    dsimp only at hh
    unfold parent_set_notify at h
    rw [hid] at h
    dsimp only at h
    rw [hh] at h
    dsimp only at h
    rw [if_pos hne] at h
    simp only [Option.some.injEq] at h
    exact h.symm

theorem parent_set_notify_keep_none (a : Account) (m m' : MaskState)
    (hh : mask_holds m a.id = none)
    (h : parent_set_notify a m = some m') : m' = m := by
  unfold mask_holds at hh
  unfold parent_set_notify at h
  cases hid : alookup m.id_to_addr a.id with
  | none =>
    rw [hid] at h
    dsimp only at h
    simp only [Option.some.injEq] at h
    exact h.symm
  | some addr =>
    rw [hid] at hh h
    dsimp only at hh h
    rw [hh] at h
    dsimp only at h
    simp only [Option.some.injEq] at h
    exact h.symm

/-- C4 (amended): when the parent writes an account through the public
`set`, every attached child is notified before the write returns (the
resulting children are exactly the notified ones and the database holds
the write), and, provided the set completes without panicking, each
child drops its shadow of the written account's id iff the shadowed
value equals the written account: an equal shadow is gone afterwards, a
different (or absent) shadow leaves the child completely unchanged. -/
theorem c4_parent_notify_pruning (p : RootParent) (addr : Nat) (a : Account)
    (p' : RootParent) (h : root_set p addr a = some p') :
    p'.db = db_set p.db addr a ∧
    omapM (parent_set_notify a) p.childs = some p'.childs ∧
    p'.childs.length = p.childs.length ∧
    (∀ i (hi : i < p.childs.length) (hi' : i < p'.childs.length),
      (mask_holds (p.childs.get ⟨i, hi⟩) a.id = some a →
        mask_holds (p'.childs.get ⟨i, hi'⟩) a.id = none) ∧
      (∀ b, mask_holds (p.childs.get ⟨i, hi⟩) a.id = some b → b ≠ a →
        p'.childs.get ⟨i, hi'⟩ = p.childs.get ⟨i, hi⟩) ∧
      (mask_holds (p.childs.get ⟨i, hi⟩) a.id = none →
        p'.childs.get ⟨i, hi'⟩ = p.childs.get ⟨i, hi⟩)) := by
  unfold root_set at h
  cases ho : omapM (parent_set_notify a) p.childs with
  | none => rw [ho] at h; exact absurd h (by simp)
  | some cs =>
    rw [ho] at h
    dsimp only at h
    simp only [Option.some.injEq] at h
    subst h
    refine ⟨rfl, rfl, omapM_some_length _ _ _ ho, ?_⟩
    intro i hi hi'
    have hstep := omapM_some_get (parent_set_notify a) p.childs cs ho i hi hi'
    exact ⟨fun hha => parent_set_notify_drop a _ _ hha hstep,
      fun b hhb hne => parent_set_notify_keep_diff a b _ _ hhb hne hstep,
      fun hn => parent_set_notify_keep_none a _ _ hn hstep⟩

/-- C4 (witness for the amended theorem). -/
theorem c4_parent_notify_pruning_witness :
    mask_holds MaskState.empty c4_a.id = none :=
  ((c4_parent_notify_pruning { db := dbEmpty, childs := [c4_m1] } 0 c4_a
      { db := db_set dbEmpty 0 c4_a, childs := [MaskState.empty] } rfl).2.2.2
    0 (by decide) (by decide)).1 rfl

/-- The single-receiver arm of `process_fee_transfer` only ever returns
no failure bucket (success) or the `single_failure` vector (receive not
permitted). -/
theorem process_fee_transfer_one_failures (l : SimpleLedger) (a : FeeTransferInner)
    (mb : AccountState → AccountId → Nat → Nat → Option (Except String Nat))
    (mt : Account → Option (Except String Timing)) (r : ProcessedFeeTransfer)
    (h : process_fee_transfer l (OneOrTwo.One a) mb mt = some (Except.ok r)) :
    r.failures = [] ∨ r.failures = single_failure := by
  unfold process_fee_transfer at h
  split at h
  · exact absurd h (by simp)
  · dsimp only at h
    repeat' split at h
    all_goals
      first
        | (simp only [Option.some.injEq, Except.ok.injEq] at h; subst h; simp)
        | simp at h

/-- The two-receiver arm of `process_fee_transfer` always returns
exactly two failure buckets, each empty or the single
balance-permission failure. -/
theorem process_fee_transfer_two_failures (l : SimpleLedger) (a b : FeeTransferInner)
    (mb : AccountState → AccountId → Nat → Nat → Option (Except String Nat))
    (mt : Account → Option (Except String Timing)) (r : ProcessedFeeTransfer)
    (h : process_fee_transfer l (OneOrTwo.Two a b) mb mt = some (Except.ok r)) :
    r.failures.length = 2 ∧ ∀ f ∈ r.failures,
      f = [] ∨ f = [TransactionFailure.Update_not_permitted_balance] := by
  unfold process_fee_transfer at h
  split at h
  · exact absurd h (by simp)
  · dsimp only at h
    repeat' split at h
    all_goals
      first
        | (simp only [Option.some.injEq, Except.ok.injEq] at h; subst h; simp)
        | simp at h
    rename_i hq1 _ _ _ _ _ hq2 _ _ _
    constructor
    · split at hq1
      · split at hq1
        · exact absurd hq1 (by simp)
        · simp only [Option.some.injEq, Prod.mk.injEq] at hq1
          exact Or.inl hq1.2.2.1.symm
      · simp only [Option.some.injEq, Prod.mk.injEq] at hq1
        exact Or.inr hq1.2.2.1.symm
    · split at hq2
      · split at hq2
        · exact absurd hq2 (by simp)
        · simp only [Option.some.injEq, Prod.mk.injEq] at hq2
          exact Or.inl hq2.2.2.1.symm
      · simp only [Option.some.injEq, Prod.mk.injEq] at hq2
        exact Or.inr hq2.2.2.1.symm


/-- C6 (amended): for every fee transfer accepted by
`process_fee_transfer`, the failures vector is `[]` (no buckets at all)
for a single receiver that succeeds and `[[Update_not_permitted_balance]]`
for a single receiver that fails; for two receivers it has exactly two
buckets, each empty or the single balance-permission failure; and the
transaction status computed from it is `Applied` exactly when every
bucket is empty. -/
theorem c6_fee_transfer_failure_shape (l : SimpleLedger) (ft : FeeTransfer)
    (mb : AccountState → AccountId → Nat → Nat → Option (Except String Nat))
    (mt : Account → Option (Except String Timing)) (r : ProcessedFeeTransfer)
    (h : process_fee_transfer l ft mb mt = some (Except.ok r)) :
    (∀ a, ft = OneOrTwo.One a → r.failures = [] ∨ r.failures = single_failure) ∧
    (∀ a b, ft = OneOrTwo.Two a b → r.failures.length = 2 ∧ ∀ f ∈ r.failures,
      f = [] ∨ f = [TransactionFailure.Update_not_permitted_balance]) ∧
    (fee_transfer_status r.failures = TransactionStatus.Applied ↔
      r.failures.all List.isEmpty) := by
  refine ⟨?_, ?_, fee_transfer_status_applied_iff r.failures⟩
  · intro a ha
    subst ha
    exact process_fee_transfer_one_failures l a mb mt r h
  · intro a b hab
    subst hab
    exact process_fee_transfer_two_failures l a b mb mt r h

/-- C6 (witness for the amended theorem): the concrete single-receiver
transfer succeeds with no failure buckets. -/
theorem c6_fee_transfer_failure_shape_witness :
    c6_result.failures = [] ∨ c6_result.failures = single_failure :=
  (c6_fee_transfer_failure_shape [c6_account] c6_transfer (ft_modify_balance cc1)
    (ft_modify_timing 0) c6_result rfl).1 _ rfl

/-- Folding failed checks over a local state with a fresh head bucket
prepends the reversed failures to the bucket and clears `success` iff
any failure was recorded. -/
theorem foldl_add_check_cons (fs : List TransactionFailure) (l : ZkLocal)
    (hd : List TransactionFailure) (tl : List (List TransactionFailure))
    (hl : l.failure_status_tbl = hd :: tl) :
    fs.foldl (fun acc t => add_check acc t false) l =
      { l with failure_status_tbl := (fs.reverse ++ hd) :: tl
               success := l.success && fs.isEmpty } := by
  induction fs generalizing l hd with
  | nil =>
    simp only [List.foldl_nil, List.reverse_nil, List.nil_append, List.isEmpty_nil,
      Bool.and_true]
    rw [← hl]
  | cons f fs ih =>
    simp only [List.foldl_cons]
    rw [ih (add_check l f false) (f :: hd) (by simp [add_check, hl])]
    simp [add_check, hl, List.append_assoc]

/-- A middle (neither first nor last) account-update step leaves the
global state unchanged, pushes one failure bucket, conjoins its
emptiness into `success`, and writes the account locally. -/
theorem zkapp_step_mid (s : ZkStep) (g : ZkGlobal) (l : ZkLocal) (g' : ZkGlobal)
    (l' : ZkLocal) (h : zkapp_step false false s g l = some (g', l')) :
    g' = g ∧ ∃ B, l'.failure_status_tbl = B :: l.failure_status_tbl ∧
      l'.success = (l.success && B.isEmpty) ∧
      l'.ledger = set_account l.ledger s.loc s.newAcc := by
  unfold zkapp_step at h
  simp only [Bool.false_eq_true, false_and, Bool.false_or, Bool.false_and,
    if_false, Bool.not_false] at h
  rw [foldl_add_check_cons s.failures (add_new_failure_status_bucket l)
    [] l.failure_status_tbl rfl] at h
  simp only [add_new_failure_status_bucket, List.append_nil] at h
  cases hov : s.tokenDefault && (add_flagged l.excess s.delta).2 with
  | false =>
    rw [hov] at h
    simp only [Bool.not_false, add_check, if_pos, if_true, ite_true] at h
    simp only [Option.some.injEq, Prod.mk.injEq] at h
    obtain ⟨hg, hl2⟩ := h
    subst hg hl2
    refine ⟨rfl, s.failures.reverse, rfl, ?_, rfl⟩
    cases hfs : s.failures <;> simp [hfs]
  | true =>
    rw [hov] at h
    simp only [Bool.not_true, add_check, Bool.false_eq_true, if_false, if_pos,
      if_true, ite_true] at h
    simp only [Option.some.injEq, Prod.mk.injEq] at h
    obtain ⟨hg, hl2⟩ := h
    subst hg hl2
    exact ⟨rfl, TransactionFailure.Local_excess_overflow :: s.failures.reverse,
      rfl, by simp, rfl⟩

set_option maxHeartbeats 3200000 in
/-- The last account-update step of a multi-update command pushes one
failure bucket and commits the local ledger to the global ledger
exactly when the command is still successful and the bucket stays
empty; otherwise the global ledger keeps its current state. -/
theorem zkapp_step_last (s : ZkStep) (g : ZkGlobal) (l : ZkLocal) (g' : ZkGlobal)
    (l' : ZkLocal) (h : zkapp_step false true s g l = some (g', l')) :
    ∃ B, l'.failure_status_tbl = B :: l.failure_status_tbl ∧
      ((l.success && B.isEmpty) = true →
        g'.ledger = set_account l.ledger s.loc s.newAcc) ∧
      ((l.success && B.isEmpty) = false → g'.ledger = g.ledger) := by
  unfold zkapp_step at h
  simp only [Bool.false_eq_true, false_and, Bool.false_or, Bool.false_and,
    if_false, Bool.not_false, Bool.not_true, Bool.true_and] at h
  rw [foldl_add_check_cons s.failures (add_new_failure_status_bucket l)
    [] l.failure_status_tbl rfl] at h
  simp only [add_new_failure_status_bucket, List.append_nil] at h
  cases htd : s.tokenDefault <;>
  cases hsuc : l.success <;>
  cases hfe : s.failures.isEmpty <;>
  cases hov : (add_flagged l.excess s.delta).2 <;>
  cases hv1 : decide (l.excess = 0) <;>
  cases hv2 : decide ((add_flagged l.excess s.delta).1 = 0) <;>
  cases hr1 : (add_flagged g.fee_excess l.excess).2 <;>
  cases hr2 : (add_flagged g.fee_excess (add_flagged l.excess s.delta).1).2 <;>
    (simp only [htd, hsuc, hfe, hov, hv1, hv2, hr1, hr2, add_check,
      Bool.false_and, Bool.true_and, Bool.and_false, Bool.and_true,
      Bool.not_false, Bool.not_true, Bool.false_or, Bool.or_false,
      Bool.false_eq_true, Bool.true_eq_false, if_false, if_true,
      ite_true, ite_false, reduceIte] at h
     simp only [Option.some.injEq, Prod.mk.injEq] at h
     obtain ⟨hg, hl2⟩ := h
     subst hg hl2
     refine ⟨_, rfl, ?_, ?_⟩ <;> intro hx <;> simp_all [List.isEmpty_iff])

set_option maxHeartbeats 3200000 in
/-- The fee payer's (first) step of a multi-update command, when it
returns at all, has succeeded and already committed the fee payer's
write to the global ledger. -/
theorem zkapp_step_start (s : ZkStep) (g : ZkGlobal) (g' : ZkGlobal) (l' : ZkLocal)
    (h : zkapp_step true false s g ZkLocal.initial = some (g', l')) :
    g'.ledger = set_account g.ledger s.loc s.newAcc ∧
    l'.ledger = set_account g.ledger s.loc s.newAcc ∧
    l'.success = true ∧ l'.failure_status_tbl = [[]] := by
  unfold zkapp_step at h
  simp only [ZkLocal.initial, eq_self_iff_true, if_true, ite_true, true_and,
    reduceIte] at h
  rw [foldl_add_check_cons s.failures
    (add_new_failure_status_bucket
      { ledger := g.ledger, excess := 0, success := true, failure_status_tbl := [] })
    [] [] rfl] at h
  simp only [add_new_failure_status_bucket] at h
  cases htd : s.tokenDefault <;>
  cases hsp : s.deltaSgnPos <;>
  cases hfe : s.failures.isEmpty <;>
  cases hov : (add_flagged 0 s.delta).2 <;>
  cases hrg : (add_flagged g.fee_excess (add_flagged 0 s.delta).1).2 <;>
    (simp only [htd, hsp, hfe, hov, hrg, add_check, List.append_nil,
      Bool.false_and, Bool.true_and, Bool.and_false, Bool.and_true,
      Bool.not_false, Bool.not_true, Bool.false_or, Bool.or_false,
      Bool.true_or, Bool.or_true, Bool.false_eq_true, Bool.true_eq_false,
      eq_self_iff_true, true_and, and_true, not_true, not_false_iff,
      if_false, if_true, ite_true, ite_false, reduceIte] at h
     first
       | (simp only [Option.some.injEq, Prod.mk.injEq] at h
          obtain ⟨hg, hl2⟩ := h
          subst hg hl2
          refine ⟨?_, ?_, ?_, ?_⟩ <;> simp_all [List.isEmpty_iff])
       | simp_all)

set_option maxHeartbeats 3200000 in
/-- A single-update command's only step, when it returns at all, has
succeeded and committed its write to the global ledger. -/
theorem zkapp_step_start_last (s : ZkStep) (g : ZkGlobal) (g' : ZkGlobal)
    (l' : ZkLocal) (h : zkapp_step true true s g ZkLocal.initial = some (g', l')) :
    g'.ledger = set_account g.ledger s.loc s.newAcc ∧
    l'.failure_status_tbl = [[]] := by
  unfold zkapp_step at h
  simp only [ZkLocal.initial, eq_self_iff_true, if_true, ite_true, true_and,
    reduceIte] at h
  rw [foldl_add_check_cons s.failures
    (add_new_failure_status_bucket
      { ledger := g.ledger, excess := 0, success := true, failure_status_tbl := [] })
    [] [] rfl] at h
  simp only [add_new_failure_status_bucket] at h
  cases htd : s.tokenDefault <;>
  cases hsp : s.deltaSgnPos <;>
  cases hfe : s.failures.isEmpty <;>
  cases hov : (add_flagged 0 s.delta).2 <;>
  cases hv : decide ((add_flagged 0 s.delta).1 = 0) <;>
  cases hrg : (add_flagged g.fee_excess (add_flagged 0 s.delta).1).2 <;>
    (simp only [htd, hsp, hfe, hov, hv, hrg, add_check, List.append_nil,
      Bool.false_and, Bool.true_and, Bool.and_false, Bool.and_true,
      Bool.not_false, Bool.not_true, Bool.false_or, Bool.or_false,
      Bool.true_or, Bool.or_true, Bool.false_eq_true, Bool.true_eq_false,
      eq_self_iff_true, true_and, and_true, not_true, not_false_iff,
      if_false, if_true, ite_true, ite_false, reduceIte] at h
     first
       | (simp only [Option.some.injEq, Prod.mk.injEq] at h
          obtain ⟨hg, hl2⟩ := h
          subst hg hl2
          refine ⟨?_, ?_⟩ <;> simp_all [List.isEmpty_iff])
       | simp_all)

/-- Running the remaining (non-start) steps accumulates one failure
bucket per step; the accumulated writes become globally visible iff
the incoming state and every new bucket are clean, and otherwise the
global state keeps its incoming ledger. -/
theorem run_steps_nonstart (rest : List ZkStep) (s : ZkStep) (g : ZkGlobal)
    (l : ZkLocal) (gf : ZkGlobal) (lf : ZkLocal)
    (h : run_steps s rest false g l = some (gf, lf)) :
    ∃ Bs, lf.failure_status_tbl = Bs ++ l.failure_status_tbl ∧
      ((l.success && Bs.all List.isEmpty) = true →
        gf.ledger = (s :: rest).foldl
          (fun L st => set_account L st.loc st.newAcc) l.ledger) ∧
      ((l.success && Bs.all List.isEmpty) = false → gf.ledger = g.ledger) := by
  induction rest generalizing s g l with
  | nil =>
    unfold run_steps at h
    simp only [List.isEmpty_nil] at h
    cases hz : zkapp_step false true s g l with
    | none => rw [hz] at h; exact absurd h (by simp)
    | some p =>
      obtain ⟨g1, l1⟩ := p
      rw [hz] at h
      dsimp only at h
      simp only [Option.some.injEq, Prod.mk.injEq] at h
      obtain ⟨hgf, hlf⟩ := h
      subst hgf hlf
      obtain ⟨B, hB, hc, hk⟩ := zkapp_step_last s g l g1 l1 hz
      refine ⟨[B], by simpa using hB, ?_, ?_⟩
      · intro hx
        have hx' : (l.success && B.isEmpty) = true := by simpa using hx
        simpa using hc hx'
      · intro hx
        have hx' : (l.success && B.isEmpty) = false := by simpa using hx
        exact hk hx'
  | cons s2 rest' ih =>
    unfold run_steps at h
    simp only [List.isEmpty_cons] at h
    cases hz : zkapp_step false false s g l with
    | none => rw [hz] at h; exact absurd h (by simp)
    | some p =>
      obtain ⟨g1, l1⟩ := p
      rw [hz] at h
      dsimp only at h
      obtain ⟨hg1, B, hB, hsucc, hled⟩ := zkapp_step_mid s g l g1 l1 hz
      subst hg1
      obtain ⟨Bs, hBs, hc, hk⟩ := ih s2 g1 l1 h
      refine ⟨Bs ++ [B], ?_, ?_, ?_⟩
      · rw [hBs, hB, List.append_assoc, List.singleton_append]
      · intro hx
        simp only [List.all_append, List.all_cons, List.all_nil,
          Bool.and_true] at hx
        have hx' : (l1.success && Bs.all List.isEmpty) = true := by
          rw [hsucc, Bool.and_assoc, Bool.and_comm B.isEmpty (Bs.all List.isEmpty)]
          exact hx
        rw [List.foldl_cons, hc hx', hled]
      · intro hx
        simp only [List.all_append, List.all_cons, List.all_nil,
          Bool.and_true] at hx
        apply hk
        rw [hsucc, Bool.and_assoc, Bool.and_comm B.isEmpty (Bs.all List.isEmpty)]
        exact hx

/-- C2 (amended): after a zkApp command runs to completion, if any
per-step failure was recorded then the global ledger equals its state
just after the fee payer's (first) account update was committed — the
pre-command ledger plus the fee payer's write; if no failure was
recorded, exactly the per-update account writes (in order) are visible
in the global ledger. -/
theorem c2_zkapp_ledger_visibility (s1 : ZkStep) (rest : List ZkStep)
    (g0 gf : ZkGlobal) (lf : ZkLocal)
    (h : run_zkapp_command (s1 :: rest) g0 = some (gf, lf)) :
    (lf.failure_status_tbl.all List.isEmpty = false →
      gf.ledger = set_account g0.ledger s1.loc s1.newAcc) ∧
    (lf.failure_status_tbl.all List.isEmpty = true →
      gf.ledger = (s1 :: rest).foldl
        (fun L st => set_account L st.loc st.newAcc) g0.ledger) := by
  unfold run_zkapp_command at h
  cases rest with
  | nil =>
    unfold run_steps at h
    simp only [List.isEmpty_nil] at h
    cases hz : zkapp_step true true s1 g0 ZkLocal.initial with
    | none => rw [hz] at h; exact absurd h (by simp)
    | some p =>
      obtain ⟨g1, l1⟩ := p
      rw [hz] at h
      dsimp only at h
      simp only [Option.some.injEq, Prod.mk.injEq] at h
      obtain ⟨hgf, hlf⟩ := h
      subst hgf hlf
      obtain ⟨hled, htbl⟩ := zkapp_step_start_last s1 g0 g1 l1 hz
      constructor
      · intro hx
        rw [htbl] at hx
        simp at hx
      · intro _
        simpa using hled
  | cons s2 rest' =>
    unfold run_steps at h
    simp only [List.isEmpty_cons] at h
    cases hz : zkapp_step true false s1 g0 ZkLocal.initial with
    | none => rw [hz] at h; exact absurd h (by simp)
    | some p =>
      obtain ⟨g1, l1⟩ := p
      rw [hz] at h
      dsimp only at h
      obtain ⟨hg1, hl1led, hl1suc, hl1tbl⟩ := zkapp_step_start s1 g0 g1 l1 hz
      obtain ⟨Bs, hBs, hc, hk⟩ := run_steps_nonstart rest' s2 g1 l1 gf lf h
      rw [hl1tbl] at hBs
      constructor
      · intro hx
        have hba : Bs.all List.isEmpty = false := by
          rw [hBs] at hx
          simpa [List.all_append] using hx
        have hgl := hk (by rw [hl1suc, hba]; rfl)
        rw [hgl, hg1]
      · intro hx
        have hba : Bs.all List.isEmpty = true := by
          rw [hBs] at hx
          simpa [List.all_append] using hx
        have hgl := hc (by rw [hl1suc, hba]; rfl)
        rw [List.foldl_cons, hgl, hl1led]


/-- C2 (witness for the amended theorem): the concrete two-update
command with no failures makes exactly both account writes visible. -/
theorem c2_zkapp_ledger_visibility_witness :
    c2_lf.failure_status_tbl.all List.isEmpty = true ∧
    c2_gf.ledger = [c2_step1, c2_step2_ok].foldl
      (fun L st => set_account L st.loc st.newAcc) c2_g0.ledger :=
  ⟨rfl, (c2_zkapp_ledger_visibility c2_step1 [c2_step2_ok] c2_g0 c2_gf c2_lf
    rfl).2 rfl⟩
